import Mathlib

/-!
# QtAV demuxer (`src/AVDemuxer.cpp`): shallow embedding and verified properties

The C++ class `AVDemuxer` is embedded as a record of its data members; each
member function becomes a function on that record.  Pointers are `Option`s,
a dereference of an absent pointer is the fault `Fault.nullDeref`, and the
calls into libavformat / libavcodec / Qt are inputs of the embedding (the
record `LibAV`, the result of `av_read_frame`, the current time `now`).
`qreal` values are exact rationals.
-/

namespace QtAV

/-! ## Data model -/

/-- Faults of the C++ program that the embedding makes explicit. -/
inductive Fault where
  | nullDeref
  | outOfBounds
  deriving DecidableEq, Repr

/-- Signals emitted by the demuxer (`emit started()`, `emit finished()`). -/
inductive Signal where
  | started
  | finished
  deriving DecidableEq, Repr

/-- The libavutil enumeration `AVMediaType` (constructors in lower case). -/
inductive AVMediaType where
  | unknown
  | video
  | audio
  | data
  | subtitle
  | attachment
  deriving DecidableEq, Repr

/-- The libavutil rational `AVRational`. -/
structure AVRational where
  num : Int
  den : Int
  deriving DecidableEq, Repr

/-- The fields of `AVCodecContext` that the demuxer reads or writes.  Single
flag bits that the code sets or clears are booleans: `emu_edge` is
`flags & CODEC_FLAG_EMU_EDGE`, `fast` is `flags2 & CODEC_FLAG2_FAST`;
`skip_default` records that `skip_loop_filter`, `skip_idct` and `skip_frame`
hold `AVDISCARD_DEFAULT`. -/
structure AVCodecContext where
  codec_type : AVMediaType
  codec_id : Int
  frame_number : Int
  thread_type : Int
  thread_count : Int
  emu_edge : Bool
  fast : Bool
  skip_default : Bool
  deriving DecidableEq, Repr

/-- A decoder as returned by `avcodec_find_decoder`; `cap_dr1` is
`capabilities & CODEC_CAP_DR1`. -/
structure AVCodec where
  cap_dr1 : Bool
  deriving DecidableEq, Repr

/-- The fields of `AVStream` used by the demuxer. -/
structure AVStream where
  codec : AVCodecContext
  time_base : AVRational
  deriving DecidableEq, Repr

/-- The fields of `AVFormatContext` used by the demuxer; `genpts` is
`flags & AVFMT_FLAG_GENPTS`, `streams` has `nb_streams` entries. -/
structure AVFormatContext where
  filename : String
  start_time : Int
  duration : Int
  bit_rate : Int
  genpts : Bool
  streams : List AVStream
  deriving DecidableEq, Repr

/-- The native packet filled by `av_read_frame`; `data` holds the `size`
payload bytes and `key` is `flags & AV_PKT_FLAG_KEY`. -/
structure AVPacket where
  stream_index : Int
  data : List Nat
  pts : Int
  dts : Int
  duration : Int
  key : Bool
  convergence_duration : Int
  deriving DecidableEq, Repr

/-- The demuxer's single packet slot (`QtAV::Packet`). -/
structure Packet where
  data : List Nat
  pts : ℚ
  duration : ℚ
  deriving DecidableEq, Repr

/-- Qt's `QElapsedTimer`: the time at which it was started, absent when the
timer is invalid. -/
structure QElapsedTimer where
  t0 : Option Int
  deriving DecidableEq, Repr

/-- The clock types of `AVClock`. -/
inductive ClockType where
  | AudioClock
  | ExternalClock
  deriving DecidableEq, Repr

/-- Modelled from the spec: the class `AVClock` (declared in `QtAV/AVClock.h`,
which is not among the sources).  The demuxer queries `isClockAuto()`, sets the
clock type, and pushes a position in seconds and one in milliseconds. -/
structure AVClock where
  isClockAuto : Bool
  clock_type : ClockType
  value : ℚ
  external : Int
  deriving DecidableEq, Repr

/-- The data members of `AVDemuxer`.  The codec context pointers point into the
streams of `format_context`; the embedding keeps the pointee. -/
structure AVDemuxer where
  started_ : Bool
  eof : Bool
  pkt : Packet
  ipts : Int
  stream_idx : Int
  audio_stream : Int
  video_stream : Int
  subtitle_stream : Int
  _is_input : Bool
  format_context : Option AVFormatContext
  a_codec_context : Option AVCodecContext
  v_codec_context : Option AVCodecContext
  _file_name : String
  master_clock : Option AVClock
  __interrupt_status : Int
  __interrupt_timeout : Int
  __interrupt_timer : QElapsedTimer
  seek_timer : QElapsedTimer
  deriving DecidableEq, Repr

/-- The calls into libavformat, libavcodec and Qt made while opening a file.
`avformat_open_input` yields its return code and the opened context (used only
when the code is non-negative; on failure the library frees the context and
nulls the caller's pointer).  `avformat_find_stream_info` yields its return
code and the probed context.  `open2_no_codec` is the library's contract that
`avcodec_open2` called without a codec (on a context that has none) fails with
`AVERROR(EINVAL)`. -/
structure LibAV where
  avformat_open_input : String → Int × AVFormatContext
  avformat_find_stream_info : AVFormatContext → Int × AVFormatContext
  avcodec_find_decoder : Int → Option AVCodec
  avcodec_open2 : AVCodecContext → Option AVCodec → Int
  idealThreadCount : Int
  CODEC_ID_H264 : Int
  open2_no_codec : ∀ ctx, avcodec_open2 ctx none < 0

/-- The libavutil error code `AVERROR_EOF`, that is `-MKTAG('E','O','F',' ')`. -/
def AVERROR_EOF : Int := -541478725

/-- The libavutil error code `AVERROR_INVALIDDATA`, `-MKTAG('I','N','D','A')`. -/
def AVERROR_INVALIDDATA : Int := -1094995529

/-- The libavutil constant `AV_NOPTS_VALUE`, the least 64-bit integer. -/
def AV_NOPTS_VALUE : Int := -9223372036854775808

/-- The libavcodec constant `FF_THREAD_FRAME`. -/
def FF_THREAD_FRAME : Int := 1

/-! ## Timers -/

/-- `QElapsedTimer::start()` at time `now`. -/
def QElapsedTimer.start (_t : QElapsedTimer) (now : Int) : QElapsedTimer :=
  { t0 := some now }

/-- `QElapsedTimer::invalidate()`. -/
def QElapsedTimer.invalidate (_t : QElapsedTimer) : QElapsedTimer :=
  { t0 := none }

/-- `QElapsedTimer::isValid()`. -/
def QElapsedTimer.isValid (t : QElapsedTimer) : Bool :=
  t.t0.isSome

/-- `QElapsedTimer::elapsed()` at time `now` (milliseconds since the start). -/
def QElapsedTimer.elapsed (t : QElapsedTimer) (now : Int) : Int :=
  match t.t0 with
  | some t0 => now - t0
  | none => 0

/-- Modelled from the spec: `QElapsedTimer::hasExpired(timeout)` (Qt library
code, not among the sources): the elapsed time exceeds the timeout. -/
def QElapsedTimer.hasExpired (t : QElapsedTimer) (now : Int) (timeout : Int) : Bool :=
  decide (timeout < t.elapsed now)

/-! ## Interrupt callback -/

/-- `AVDemuxer::__interrupt_cb(void *obj)`, evaluated at time `now`. -/
def __interrupt_cb (now : Int) (obj : Option AVDemuxer) : Int :=
  match obj with
  | none => -1
  | some demuxer =>
    if demuxer.__interrupt_status > 0 then 1
    else if demuxer.__interrupt_timer.isValid
        && demuxer.__interrupt_timer.hasExpired now demuxer.__interrupt_timeout then 1
    else 0

/-! ## Close and the metadata accessors -/

/-- `AVDemuxer::close()`: the return value and the state afterwards. -/
def close (s : AVDemuxer) : Bool × AVDemuxer :=
  let s := { s with eof := false }
  let s := { s with stream_idx := -1 }
  let s := { s with audio_stream := -2, video_stream := -2, subtitle_stream := -2 }
  let s := { s with __interrupt_status := 0 }
  let s := if s.a_codec_context.isSome then { s with a_codec_context := none } else s
  let s := if s.v_codec_context.isSome then { s with v_codec_context := none } else s
  let s := if s.format_context.isSome then { s with format_context := none } else s
  (true, s)

/-- `AVDemuxer::fileName()`: reads `format_context->filename`. -/
def fileName (s : AVDemuxer) : Except Fault String :=
  match s.format_context with
  | none => .error .nullDeref
  | some fc => .ok fc.filename

/-- `AVDemuxer::startTime()`: reads `format_context->start_time`. -/
def startTime (s : AVDemuxer) : Except Fault Int :=
  match s.format_context with
  | none => .error .nullDeref
  | some fc => .ok fc.start_time

/-- `AVDemuxer::duration()`: reads `format_context->duration`. -/
def duration (s : AVDemuxer) : Except Fault Int :=
  match s.format_context with
  | none => .error .nullDeref
  | some fc => .ok fc.duration

/-- `AVDemuxer::bitRate()`: reads `format_context->bit_rate`. -/
def bitRate (s : AVDemuxer) : Except Fault Int :=
  match s.format_context with
  | none => .error .nullDeref
  | some fc => .ok fc.bit_rate

/-! ## Stream classification -/

/-- The loop of `AVDemuxer::findAVCodec()` over the streams from index `i` on:
the return value and the state afterwards. -/
def findAVCodecLoop (lib : LibAV) : List AVStream → Int → AVDemuxer → Bool × AVDemuxer
  | [], _, s => (false, s)
  | st :: rest, i, s =>
    let type := st.codec.codec_type
    let s :=
      if type = AVMediaType.video ∧ s.video_stream < 0 then
        let v := st.codec
        let v :=
          if v.codec_id = lib.CODEC_ID_H264 then
            { v with thread_type := FF_THREAD_FRAME, thread_count := lib.idealThreadCount }
          else v
        { s with video_stream := i, v_codec_context := some v }
      else if type = AVMediaType.audio ∧ s.audio_stream < 0 then
        { s with audio_stream := i, a_codec_context := some st.codec }
      else if type = AVMediaType.subtitle ∧ s.subtitle_stream < 0 then
        { s with subtitle_stream := i }
      else s
    if s.audio_stream ≥ 0 ∧ s.video_stream ≥ 0 ∧ s.subtitle_stream ≥ 0 then (true, s)
    else findAVCodecLoop lib rest (i + 1) s

/-- `AVDemuxer::findAVCodec()`. -/
def findAVCodec (lib : LibAV) (s : AVDemuxer) : Except Fault (Bool × AVDemuxer) :=
  if s.video_stream ≠ -2 ∧ s.audio_stream ≠ -2 ∧ s.subtitle_stream ≠ -2 then
    .ok (decide (s.video_stream ≠ -1 ∧ s.audio_stream ≠ -1 ∧ s.subtitle_stream ≠ -1), s)
  else
    let s := { s with video_stream := -1, audio_stream := -1, subtitle_stream := -1 }
    match s.format_context with
    | none => .error .nullDeref
    | some fc => .ok (findAVCodecLoop lib fc.streams 0 s)

/-- The scan shared by `audioStream()`, `videoStream()` and `subtitleStream()`:
the index of the first stream of type `t` from index `i` on, `dflt` when the
loop ends without a match. -/
def scanStream (t : AVMediaType) (dflt : Int) : List AVStream → Int → Int
  | [], _ => dflt
  | st :: rest, i => if st.codec.codec_type = t then i else scanStream t dflt rest (i + 1)

/-- `AVDemuxer::audioStream()`: the result and the state (the slot is `mutable`). -/
def audioStream (s : AVDemuxer) : Except Fault (Int × AVDemuxer) :=
  if s.audio_stream ≠ -2 then .ok (s.audio_stream, s)
  else
    match s.format_context with
    | none => .error .nullDeref
    | some fc =>
      let a := scanStream AVMediaType.audio (-1) fc.streams 0
      .ok (a, { s with audio_stream := a })

/-- `AVDemuxer::videoStream()`: the result and the state (the slot is `mutable`). -/
def videoStream (s : AVDemuxer) : Except Fault (Int × AVDemuxer) :=
  if s.video_stream ≠ -2 then .ok (s.video_stream, s)
  else
    match s.format_context with
    | none => .error .nullDeref
    | some fc =>
      let v := scanStream AVMediaType.video (-1) fc.streams 0
      .ok (v, { s with video_stream := v })

/-- `AVDemuxer::subtitleStream()`: the result and the state. -/
def subtitleStream (s : AVDemuxer) : Except Fault (Int × AVDemuxer) :=
  if s.subtitle_stream ≠ -2 then .ok (s.subtitle_stream, s)
  else
    match s.format_context with
    | none => .error .nullDeref
    | some fc =>
      let v := scanStream AVMediaType.subtitle (-1) fc.streams 0
      .ok (v, { s with subtitle_stream := v })

/-! ## Opening a file -/

/-- The audio part of `AVDemuxer::loadFile`: the value of `_has_audio`. -/
def openAudio (lib : LibAV) (s : AVDemuxer) : Bool :=
  match s.a_codec_context with
  | none => false
  | some a =>
    match lib.avcodec_find_decoder a.codec_id with
    | some aCodec => if lib.avcodec_open2 a (some aCodec) < 0 then false else true
    | none => false

/-- The clock part of `AVDemuxer::loadFile`; the clock pointer is dereferenced
without a test. -/
def selectClock (s : AVDemuxer) (_has_audio : Bool) : Except Fault AVDemuxer :=
  match s.master_clock with
  | none => .error .nullDeref
  | some clk =>
    if clk.isClockAuto then
      if !_has_audio then
        .ok { s with master_clock := some { clk with clock_type := ClockType.ExternalClock } }
      else
        .ok { s with master_clock := some { clk with clock_type := ClockType.AudioClock } }
    else .ok s

/-- The video part of `AVDemuxer::loadFile`: the value of `_has_vedio` and the
state afterwards. -/
def openVideo (lib : LibAV) (s : AVDemuxer) : Except Fault (Bool × AVDemuxer) :=
  match s.v_codec_context with
  | none => .ok (false, s)
  | some v =>
    let vCodec := lib.avcodec_find_decoder v.codec_id
    let _has_vedio := vCodec.isSome
    let ret := lib.avcodec_open2 v vCodec
    let r : Except Fault (Bool × AVCodecContext) :=
      if ret < 0 then .ok (false, v)
      else
        match vCodec with
        | none => .error .nullDeref
        | some c => .ok (_has_vedio, if c.cap_dr1 then { v with emu_edge := true } else v)
    match r with
    | .error e => .error e
    | .ok (_has_vedio, v) =>
      let v := { v with skip_default := true, fast := false }
      .ok (_has_vedio, { s with v_codec_context := some v })

/-- `AVDemuxer::loadFile(fileName)` at time `now`: the return value and the
state afterwards, or the fault on which the program stops. -/
def loadFile (lib : LibAV) (s : AVDemuxer) (now : Int) (fileName : String) :
    Except Fault (Bool × AVDemuxer) :=
  let s := (close s).2
  let s := { s with _file_name := fileName }
  let s := { s with __interrupt_timer := s.__interrupt_timer.start now }
  let (ret, fc) := lib.avformat_open_input fileName
  let s := { s with __interrupt_timer := s.__interrupt_timer.invalidate }
  if ret < 0 then .ok (false, { s with format_context := none })
  else
    let fc := { fc with genpts := true }
    let (ret, fc) := lib.avformat_find_stream_info fc
    let s := { s with format_context := some fc }
    if ret < 0 then .ok (false, s)
    else
      match findAVCodec lib s with
      | .error e => .error e
      | .ok (_, s) =>
        let _has_audio := openAudio lib s
        match selectClock s _has_audio with
        | .error e => .error e
        | .ok s =>
          match openVideo lib s with
          | .error e => .error e
          | .ok (_has_vedio, s) =>
            let s := { s with started_ := false }
            .ok (_has_audio || _has_vedio, s)

/-! ## Reading a packet -/

/-- `av_q2d`: the value of a rational. -/
def av_q2d (a : AVRational) : ℚ :=
  (a.num : ℚ) / (a.den : ℚ)

/-- The test `ctx && ctx->frame_number == 0` of `readFrame`. -/
def noFrameYet (c : Option AVCodecContext) : Bool :=
  match c with
  | some ctx => decide (ctx.frame_number = 0)
  | none => false

/-- The started check of `readFrame` (the `if`/`else if` after a successful
read): the state afterwards and the signals emitted. -/
def startedStep (s : AVDemuxer) : AVDemuxer × List Signal :=
  if !s.started_ && noFrameYet s.v_codec_context then
    ({ s with started_ := true }, [Signal.started])
  else if !s.started_ && noFrameYet s.a_codec_context then
    ({ s with started_ := true }, [Signal.started])
  else (s, [])

/-- The test `stream_idx != videoStream() && stream_idx != audioStream()` of
`readFrame`, evaluated left to right with short circuit: its value and the
state afterwards (the lookups cache their result). -/
def notSelected (s : AVDemuxer) : Except Fault (Bool × AVDemuxer) :=
  match videoStream s with
  | .error e => .error e
  | .ok (vs, s) =>
    if s.stream_idx ≠ vs then
      match audioStream s with
      | .error e => .error e
      | .ok (as, s) => .ok (decide (s.stream_idx ≠ as), s)
    else .ok (false, s)

/-- The copy of the native packet into the packet slot in `readFrame`: payload,
timestamp and duration, normalised with the time base of the owning stream. -/
def fillPacket (format_context : AVFormatContext) (stream_idx : Int) (packet : AVPacket)
    (pkt : Packet) : Except Fault Packet :=
  let pkt := { pkt with data := packet.data }
  let pkt := { pkt with duration := (packet.duration : ℚ) }
  let pkt :=
    if packet.dts ≠ AV_NOPTS_VALUE then { pkt with pts := (packet.dts : ℚ) }
    else if packet.pts ≠ AV_NOPTS_VALUE then { pkt with pts := (packet.pts : ℚ) }
    else { pkt with pts := 0 }
  if stream_idx < 0 then .error .outOfBounds
  else
    match format_context.streams[stream_idx.toNat]? with
    | none => .error .outOfBounds
    | some stream =>
      let pkt := { pkt with pts := pkt.pts * av_q2d stream.time_base }
      if stream.codec.codec_type = AVMediaType.subtitle ∧ packet.key = true
          ∧ packet.convergence_duration ≠ AV_NOPTS_VALUE then
        .ok { pkt with duration := (packet.convergence_duration : ℚ) * av_q2d stream.time_base }
      else if packet.duration > 0 then
        .ok { pkt with duration := (packet.duration : ℚ) * av_q2d stream.time_base }
      else .ok { pkt with duration := 0 }

/-- `AVDemuxer::readFrame()` at time `now`, where `av_read_frame` returned `ret`
and filled `packet`: the return value, the state afterwards and the signals
emitted, or the fault on which the program stops. -/
def readFrame (s : AVDemuxer) (now : Int) (ret : Int) (packet : AVPacket) :
    Except Fault (Bool × AVDemuxer × List Signal) :=
  let s := { s with __interrupt_timer := s.__interrupt_timer.start now }
  match s.format_context with
  | none => .error .nullDeref
  | some format_context =>
    let s := { s with __interrupt_timer := s.__interrupt_timer.invalidate }
    if ret ≠ 0 then
      if ret = AVERROR_EOF then
        if !s.eof then
          .ok (false, { s with eof := true, started_ := false }, [Signal.finished])
        else .ok (false, s, [])
      else .ok (false, s, [])
    else
      let s := { s with stream_idx := packet.stream_index }
      let (s, sig) := startedStep s
      match notSelected s with
      | .error e => .error e
      | .ok (true, s) => .ok (false, s, sig)
      | .ok (false, s) =>
        match fillPacket format_context s.stream_idx packet s.pkt with
        | .error e => .error e
        | .ok pkt => .ok (true, { s with pkt := pkt }, sig)

/-- A run of `readFrame()` calls, one per entry (time, result of `av_read_frame`,
native packet): the list of return values, the final state and all signals. -/
def readFrames (s : AVDemuxer) :
    List (Int × Int × AVPacket) → Except Fault (List Bool × AVDemuxer × List Signal)
  | [] => .ok ([], s, [])
  | (now, ret, packet) :: rest =>
    match readFrame s now ret packet with
    | .error e => .error e
    | .ok (b, s1, sig) =>
      match readFrames s1 rest with
      | .error e => .error e
      | .ok (bs, s2, sigs) => .ok (b :: bs, s2, sig ++ sigs)

/-! ## Seeking -/

/-- The constant `kSeekInterval` (milliseconds). -/
def kSeekInterval : Int := 168

/-- The libavutil constant `AV_TIME_BASE` (ticks per second). -/
def AV_TIME_BASE : Int := 1000000

/-- The libavformat flag `AVSEEK_FLAG_BACKWARD`. -/
def AVSEEK_FLAG_BACKWARD : Int := 1

/-- The C conversion of a `qreal` to `int64_t`: truncation toward zero. -/
def truncToInt (x : ℚ) : Int :=
  if 0 ≤ x then ⌊x⌋ else ⌈x⌉

/-- `QElapsedTimer::restart()` at time `now`. -/
def QElapsedTimer.restart (_t : QElapsedTimer) (now : Int) : QElapsedTimer :=
  { t0 := some now }

/-- Modelled from the spec: `AVClock::updateValue` (declared in `QtAV/AVClock.h`,
which is not among the sources) sets the position in seconds. -/
def AVClock.updateValue (c : AVClock) (v : ℚ) : AVClock :=
  { c with value := v }

/-- Modelled from the spec: `AVClock::updateExternalClock` (declared in
`QtAV/AVClock.h`, which is not among the sources) sets the position in
milliseconds. -/
def AVClock.updateExternalClock (c : AVClock) (ms : Int) : AVClock :=
  { c with external := ms }

/-- A call `av_seek_frame(format_context, -1, timestamp, flags)`. -/
structure SeekCall where
  timestamp : Int
  flags : Int
  deriving DecidableEq, Repr

/-- What a call of `AVDemuxer::seek` does: the state afterwards, the call of
`av_seek_frame` it issued (if any), and the fault on which the program stops
(if any). -/
structure SeekResult where
  state : AVDemuxer
  call : Option SeekCall
  fault : Option Fault
  deriving DecidableEq, Repr

/-- The rate limiter of `AVDemuxer::seek` at time `now`: `none` when the request
is ignored, else the state with the debounce timer started or restarted. -/
def seekLimiter (s : AVDemuxer) (now : Int) : Option AVDemuxer :=
  if s.seek_timer.isValid then
    if !s.seek_timer.hasExpired now kSeekInterval then none
    else some { s with seek_timer := s.seek_timer.restart now }
  else some { s with seek_timer := s.seek_timer.start now }

/-- The replay part of `AVDemuxer::seek` (`if (q == 0)`): the state afterwards
and the fault of the write through the video context pointer, which is not
tested. -/
def seekReplay (s : AVDemuxer) (q : ℚ) : AVDemuxer × Option Fault :=
  if q = 0 then
    let s := { s with started_ := false }
    match s.v_codec_context with
    | none => (s, some .nullDeref)
    | some v => ({ s with v_codec_context := some { v with frame_number := 0 } }, none)
  else (s, none)

/-- The clock part of `AVDemuxer::seek` (`if (master_clock)`) for the target `t`. -/
def seekClock (s : AVDemuxer) (t : Int) : AVDemuxer :=
  match s.master_clock with
  | some clk =>
    let clk := clk.updateValue ((t : ℚ) / (AV_TIME_BASE : ℚ))
    let clk := clk.updateExternalClock (Int.tdiv t 1000)
    { s with master_clock := some clk }
  | none => s

/-- The direction flag that `AVDemuxer::seek` passes to `av_seek_frame` for the
target `t` (`backward` and `seek_flag` in the source). -/
def seekFlag (s : AVDemuxer) (t : Int) : Int :=
  let backward := decide (t ≤ truncToInt (s.pkt.pts * (AV_TIME_BASE : ℚ)))
  if backward then 0 else AVSEEK_FLAG_BACKWARD

/-- `AVDemuxer::seek(q)` at time `now`, where `av_seek_frame timestamp flags` is
the return code of the library's seek. -/
def seek (av_seek_frame : Int → Int → Int) (s : AVDemuxer) (now : Int) (q : ℚ) :
    SeekResult :=
  if (s.a_codec_context.isNone && s.v_codec_context.isNone) || s.format_context.isNone then
    { state := s, call := none, fault := none }
  else
    match seekLimiter s now with
    | none => { state := s, call := none, fault := none }
    | some s =>
      let q := max 0 q
      if q ≥ 1 then { state := s, call := none, fault := none }
      else
        match s.format_context with
        | none => { state := s, call := none, fault := some .nullDeref }
        | some format_context =>
          let t := truncToInt (q * (format_context.duration : ℚ))
          if t ≥ format_context.duration then { state := s, call := none, fault := none }
          else
            let seek_flag := seekFlag s t
            let ret := av_seek_frame t seek_flag
            let call : Option SeekCall := some { timestamp := t, flags := seek_flag }
            if ret < 0 then { state := s, call := call, fault := none }
            else
              match seekReplay s q with
              | (s, some e) => { state := s, call := call, fault := some e }
              | (s, none) => { state := seekClock s t, call := call, fault := none }

/-- `AVDemuxer::setClock(c)`. -/
def setClock (s : AVDemuxer) (c : Option AVClock) : AVDemuxer :=
  { s with master_clock := c }

/-- `AVDemuxer::setInterruptTimeout(timeout)`. -/
def setInterruptTimeout (s : AVDemuxer) (timeout : Int) : AVDemuxer :=
  { s with __interrupt_timeout := timeout }

/-- `AVDemuxer::setInterruptStatus(interrupt)`: the return value and the state. -/
def setInterruptStatus (s : AVDemuxer) (interrupt : Int) : Int × AVDemuxer :=
  let st := if interrupt > 0 then 1 else 0
  (st, { s with __interrupt_status := st })

/-! ## Concrete inputs used to exercise the definitions -/

/-- A codec context of the given type and codec id, with no frame decoded. -/
def mkCodec (t : AVMediaType) (id : Int) : AVCodecContext :=
  { codec_type := t, codec_id := id, frame_number := 0, thread_type := 0,
    thread_count := 1, emu_edge := false, fast := false, skip_default := false }

/-- A stream of the given type and codec id with time base `1/25`. -/
def mkStream (t : AVMediaType) (id : Int) : AVStream :=
  { codec := mkCodec t id, time_base := { num := 1, den := 25 } }

/-- A container with the given streams. -/
def mkFormat (streams : List AVStream) : AVFormatContext :=
  { filename := "clip.mkv", start_time := 0, duration := 4000000, bit_rate := 128000,
    genpts := false, streams := streams }

/-- The state built by the constructor `AVDemuxer::AVDemuxer` with an empty file
name (no file is loaded); `timeout` is `QTAV_DEFAULT_NETWORK_TIMEOUT`. -/
def newDemuxer (timeout : Int) : AVDemuxer :=
  { started_ := false, eof := false, pkt := { data := [], pts := 0, duration := 0 },
    ipts := 0, stream_idx := -1, audio_stream := -2, video_stream := -2,
    subtitle_stream := -2, _is_input := true, format_context := none,
    a_codec_context := none, v_codec_context := none, _file_name := "",
    master_clock := none, __interrupt_status := 0, __interrupt_timeout := timeout,
    __interrupt_timer := { t0 := none }, seek_timer := { t0 := none } }

/-- A clock in automatic mode. -/
def autoClock : AVClock :=
  { isClockAuto := true, clock_type := ClockType.ExternalClock, value := 0, external := 0 }

/-- A library in which opening yields a container with the streams `streams`
(return code `openRet`), probing returns `probeRet`, a decoder exists exactly
for the non-negative codec ids, and opening a decoder succeeds exactly when a
codec is given. -/
def mkLib (openRet probeRet : Int) (streams : List AVStream) : LibAV :=
  { avformat_open_input := fun _ => (openRet, mkFormat streams)
    avformat_find_stream_info := fun fc => (probeRet, fc)
    avcodec_find_decoder := fun id => if 0 ≤ id then some { cap_dr1 := true } else none
    avcodec_open2 := fun _ c => if c.isSome then 0 else -22
    idealThreadCount := 4
    CODEC_ID_H264 := 28
    open2_no_codec := by intro ctx; simp }

/-- An audio stream (codec id 3) followed by a video stream (codec id 28). -/
def demoStreams : List AVStream :=
  [mkStream AVMediaType.audio 3, mkStream AVMediaType.video 28]

/-- A subtitle stream and an audio stream for which no decoder exists. -/
def undecodableStreams : List AVStream :=
  [mkStream AVMediaType.subtitle 5, mkStream AVMediaType.audio (-1)]

/-- A freshly constructed demuxer with an automatic clock attached. -/
def clockedDemuxer : AVDemuxer :=
  { newDemuxer 5000 with master_clock := some autoClock }

/-- An opened session on `demoStreams`: slots resolved, both codec contexts
captured, clock attached, nothing read yet. -/
def openSession : AVDemuxer :=
  { clockedDemuxer with
    format_context := some (mkFormat demoStreams),
    audio_stream := 0, video_stream := 1, subtitle_stream := -1,
    a_codec_context := some (mkCodec AVMediaType.audio 3),
    v_codec_context := some (mkCodec AVMediaType.video 28) }

/-- A native packet of stream `idx` with the given timestamps, two payload bytes,
duration 2 and no convergence duration. -/
def mkPacket (idx pts dts : Int) : AVPacket :=
  { stream_index := idx, data := [7, 9], pts := pts, dts := dts, duration := 2,
    key := true, convergence_duration := AV_NOPTS_VALUE }

/-- The state of `openSession` after reading the video packet `mkPacket 1 50 100`:
started, current stream 1, and the packet slot filled (100/25 = 4 seconds). -/
def afterVideoRead : AVDemuxer :=
  { openSession with
    started_ := true, stream_idx := 1,
    pkt := { data := [7, 9], pts := 4, duration := 2 / 25 } }

/-- A library seek that always succeeds. -/
def seekOk : Int → Int → Int :=
  fun _ _ => 0

/-- The opened demo session with the debounce timer started at time 0. -/
def timedSession : AVDemuxer :=
  { openSession with seek_timer := { t0 := some 0 } }

/-- An opened session whose container has an audio stream only. -/
def audioOnlySession : AVDemuxer :=
  { clockedDemuxer with
    format_context := some (mkFormat [mkStream AVMediaType.audio 3]),
    audio_stream := 0, video_stream := -1, subtitle_stream := -1,
    a_codec_context := some (mkCodec AVMediaType.audio 3) }

/-- The opened demo session in mid-play: the video decoder has decoded 7 frames,
the audio decoder none, and the started flag is clear. -/
def midPlaySession : AVDemuxer :=
  { openSession with
    v_codec_context := some { mkCodec AVMediaType.video 28 with frame_number := 7 } }

/-- A session with the demo container and all three slots unresolved. -/
def unresolvedSession : AVDemuxer :=
  { newDemuxer 5000 with format_context := some (mkFormat demoStreams) }

/-! ## Specification predicates and auxiliary definitions -/

/-- The threading hints that `findAVCodec` writes into a captured video context. -/
def threadHints (lib : LibAV) (v : AVCodecContext) : AVCodecContext :=
  if v.codec_id = lib.CODEC_ID_H264 then
    { v with thread_type := FF_THREAD_FRAME, thread_count := lib.idealThreadCount }
  else v

/-- Specification of a resolved slot: `k` is the smallest index of a stream of
type `t` in `l`, or -1 when `l` has no stream of that type. -/
def FirstOfType (t : AVMediaType) (l : List AVStream) (k : Int) : Prop :=
  (k = -1 ∧ ∀ st ∈ l, st.codec.codec_type ≠ t) ∨
  (∃ (n : Nat) (st : AVStream), k = (n : Int) ∧ l[n]? = some st ∧ st.codec.codec_type = t ∧
    ∀ (m : Nat) (st2 : AVStream), m < n → l[m]? = some st2 → st2.codec.codec_type ≠ t)

/-- The state in which `loadFile` calls `findAVCodec`, after the slots have been
set to -1: the closed state with the file name and the probed container `fc`. -/
def probedState (s : AVDemuxer) (fileName : String) (fc : AVFormatContext) : AVDemuxer :=
  { s with eof := false, stream_idx := -1, audio_stream := -1,
           video_stream := -1, subtitle_stream := -1,
           __interrupt_status := 0, a_codec_context := none,
           v_codec_context := none, format_context := some fc,
           _file_name := fileName, __interrupt_timer := { t0 := none } }

/-- Specification: the container has an audio stream, a decoder exists for the
first one and its initialisation succeeds. -/
def usableAudio (lib : LibAV) (fc : AVFormatContext) : Prop :=
  ∃ st c, fc.streams.find? (fun st => decide (st.codec.codec_type = AVMediaType.audio)) = some st ∧
    lib.avcodec_find_decoder st.codec.codec_id = some c ∧
    0 ≤ lib.avcodec_open2 st.codec (some c)

/-- Specification: the container has a video stream, a decoder exists for the
first one and its initialisation (on the context carrying the threading hints)
succeeds. -/
def usableVideo (lib : LibAV) (fc : AVFormatContext) : Prop :=
  ∃ st c, fc.streams.find? (fun st => decide (st.codec.codec_type = AVMediaType.video)) = some st ∧
    lib.avcodec_find_decoder st.codec.codec_id = some c ∧
    0 ≤ lib.avcodec_open2 (threadHints lib st.codec) (some c)

/-- The closed state: no container handle, no codec context, and the three
stream slots unresolved. -/
def closedState (s : AVDemuxer) : Prop :=
  s.format_context = none ∧ s.a_codec_context = none ∧ s.v_codec_context = none ∧
  s.audio_stream = -2 ∧ s.video_stream = -2 ∧ s.subtitle_stream = -2

/-- The index that `videoStream()` returns on a session with container `fc`. -/
def videoIndex (s : AVDemuxer) (fc : AVFormatContext) : Int :=
  if s.video_stream ≠ -2 then s.video_stream
  else scanStream AVMediaType.video (-1) fc.streams 0

/-- The index that `audioStream()` returns on a session with container `fc`. -/
def audioIndex (s : AVDemuxer) (fc : AVFormatContext) : Int :=
  if s.audio_stream ≠ -2 then s.audio_stream
  else scanStream AVMediaType.audio (-1) fc.streams 0

/-- The state in which `readFrame` runs its started check after a successful
read: the timer invalidated and the packet's stream index recorded. -/
def afterRead (s : AVDemuxer) (p : AVPacket) : AVDemuxer :=
  { s with __interrupt_timer := { t0 := none }, stream_idx := p.stream_index }

/-- A ready session: the container handle and at least one codec context are
present (the negation of the first test of `seek`). -/
def ready (s : AVDemuxer) : Prop :=
  (s.a_codec_context.isSome = true ∨ s.v_codec_context.isSome = true) ∧
  s.format_context.isSome = true

/-- The state of `s` with the debounce timer started at `now`. -/
def armed (s : AVDemuxer) (now : Int) : AVDemuxer :=
  { s with seek_timer := { t0 := some now } }

/-- The state after the started check and the selection test of a successful
read on a session with container `fc`. -/
def selectedState (s : AVDemuxer) (p : AVPacket) (fc : AVFormatContext) : AVDemuxer :=
  { afterRead s p with
    started_ := (startedStep (afterRead s p)).1.started_,
    video_stream := videoIndex s fc,
    audio_stream := if p.stream_index ≠ videoIndex s fc then audioIndex s fc
                    else s.audio_stream }

/-- Specification of atomically resolved slots: the three slots are all
unresolved (-2), or all resolved (each -1 or a non-negative index). -/
def slotsAtomic (s : AVDemuxer) : Prop :=
  (s.audio_stream = -2 ∧ s.video_stream = -2 ∧ s.subtitle_stream = -2) ∨
  (-1 ≤ s.audio_stream ∧ -1 ≤ s.video_stream ∧ -1 ≤ s.subtitle_stream)

/-- The states reachable with the library `lib` through the public member
functions: construction, `loadFile`, `close`, `findAVCodec`, the three lookups,
`readFrame`, `seek` and the setters.  A call that ends in a fault yields no
state. -/
inductive Reachable (lib : LibAV) : AVDemuxer → Prop where
  | byConstruct (timeout : Int) : Reachable lib (newDemuxer timeout)
  | byLoadFile (s s2 : AVDemuxer) (now : Int) (f : String) (b : Bool) :
      Reachable lib s → loadFile lib s now f = .ok (b, s2) → Reachable lib s2
  | byClose (s : AVDemuxer) : Reachable lib s → Reachable lib (close s).2
  | byFindAVCodec (s s2 : AVDemuxer) (b : Bool) :
      Reachable lib s → findAVCodec lib s = .ok (b, s2) → Reachable lib s2
  | byAudioStream (s s2 : AVDemuxer) (i : Int) :
      Reachable lib s → audioStream s = .ok (i, s2) → Reachable lib s2
  | byVideoStream (s s2 : AVDemuxer) (i : Int) :
      Reachable lib s → videoStream s = .ok (i, s2) → Reachable lib s2
  | bySubtitleStream (s s2 : AVDemuxer) (i : Int) :
      Reachable lib s → subtitleStream s = .ok (i, s2) → Reachable lib s2
  | byReadFrame (s s2 : AVDemuxer) (now ret : Int) (p : AVPacket) (b : Bool)
      (sig : List Signal) :
      Reachable lib s → readFrame s now ret p = .ok (b, s2, sig) → Reachable lib s2
  | bySeek (s : AVDemuxer) (f : Int → Int → Int) (now : Int) (q : ℚ) :
      Reachable lib s → (seek f s now q).fault = none → Reachable lib (seek f s now q).state
  | bySetClock (s : AVDemuxer) (c : Option AVClock) :
      Reachable lib s → Reachable lib (setClock s c)
  | bySetInterruptTimeout (s : AVDemuxer) (timeout : Int) :
      Reachable lib s → Reachable lib (setInterruptTimeout s timeout)
  | bySetInterruptStatus (s : AVDemuxer) (interrupt : Int) :
      Reachable lib s → Reachable lib (setInterruptStatus s interrupt).2

/-- A call of `readFrame` (with the time, the result of `av_read_frame` and the
native packet) or of `seek` (with the library's seek, the time and the fraction). -/
inductive Op where
  | readOp (now ret : Int) (packet : AVPacket)
  | seekOp (av_seek_frame : Int → Int → Int) (now : Int) (q : ℚ)

/-- A run of `readFrame` and `seek` calls in the given order, stopping at the
first fault: the state reached, the signals emitted and the fault, if any.  (A
call of `readFrame` that ends in a fault has emitted no `finished`: it faults
only after a successful native read.) -/
def run : AVDemuxer → List Op → AVDemuxer × List Signal × Option Fault
  | s, [] => (s, [], none)
  | s, Op.readOp now ret packet :: rest =>
    match readFrame s now ret packet with
    | .error e => (s, [], some e)
    | .ok (_, s1, sig) =>
      match run s1 rest with
      | (s2, sigs, e) => (s2, sig ++ sigs, e)
  | s, Op.seekOp av_seek_frame now q :: rest =>
    match (seek av_seek_frame s now q).fault with
    | some e => ((seek av_seek_frame s now q).state, [], some e)
    | none => run (seek av_seek_frame s now q).state rest

/-- `AVDemuxer::atEnd()`. -/
def atEnd (s : AVDemuxer) : Bool :=
  s.eof

/-- The invariant behind atomically resolved slots: without a container handle the
three slots are unresolved, with one they are all resolved. -/
def slotsInv (s : AVDemuxer) : Prop :=
  (s.format_context = none ∧
    s.audio_stream = -2 ∧ s.video_stream = -2 ∧ s.subtitle_stream = -2) ∨
  (-1 ≤ s.audio_stream ∧ -1 ≤ s.video_stream ∧ -1 ≤ s.subtitle_stream)

/-- The session after a `loadFile` whose probe failed, followed by
`videoStream()`: video slot 1, audio and subtitle slots unresolved. -/
def halfResolved : AVDemuxer :=
  { newDemuxer 5000 with
    _file_name := "clip.mkv",
    format_context := some { mkFormat demoStreams with genpts := true },
    video_stream := 1 }

/-- The session after `loadFile` of the demo container on `clockedDemuxer`: both
decoders opened, slots resolved, clock set to the audio clock. -/
def loadedSession : AVDemuxer :=
  { clockedDemuxer with
    _file_name := "clip.mkv",
    format_context := some { mkFormat demoStreams with genpts := true },
    audio_stream := 0, video_stream := 1, subtitle_stream := -1,
    a_codec_context := some (mkCodec AVMediaType.audio 3),
    v_codec_context := some
      { mkCodec AVMediaType.video 28 with
        thread_type := 1, thread_count := 4, emu_edge := true, skip_default := true },
    master_clock := some { autoClock with clock_type := ClockType.AudioClock } }

/-! ## Lemmas on the classification loop -/

/-- The loop writes only the three slots and the two codec context pointers. -/
theorem findAVCodecLoop_frame (lib : LibAV) (l : List AVStream) :
    ∀ (i : Int) (s : AVDemuxer), ∃ v a sb ac vc,
      (findAVCodecLoop lib l i s).2 =
        { s with video_stream := v, audio_stream := a, subtitle_stream := sb,
                 a_codec_context := ac, v_codec_context := vc } := by
  induction l with
  | nil => intro i s; exact ⟨_, _, _, _, _, rfl⟩
  | cons st rest ih =>
    intro i s
    simp only [findAVCodecLoop]
    split_ifs with h1 h2 h3 h4 h5 h6 h7 h8
    all_goals first
      | exact ⟨_, _, _, _, _, rfl⟩
      | (obtain ⟨v, a, sb, ac, vc, h⟩ := ih (i + 1) _; rw [h]; exact ⟨_, _, _, _, _, rfl⟩)

/-- The video slot after the loop: an unresolved or not-found slot takes the
index of the first video stream, a found slot is kept. -/
theorem findAVCodecLoop_video (lib : LibAV) (l : List AVStream) :
    ∀ (i : Int) (s : AVDemuxer), 0 ≤ i →
      (findAVCodecLoop lib l i s).2.video_stream =
        if s.video_stream < 0 then scanStream AVMediaType.video s.video_stream l i
        else s.video_stream := by
  induction l with
  | nil => intro i s _; simp [findAVCodecLoop, scanStream]
  | cons st rest ih =>
    intro i s hi
    simp only [findAVCodecLoop, scanStream]
    split_ifs <;> simp_all [ih (i + 1) _ (by omega)] <;> omega

/-- The audio slot after the loop. -/
theorem findAVCodecLoop_audio (lib : LibAV) (l : List AVStream) :
    ∀ (i : Int) (s : AVDemuxer), 0 ≤ i →
      (findAVCodecLoop lib l i s).2.audio_stream =
        if s.audio_stream < 0 then scanStream AVMediaType.audio s.audio_stream l i
        else s.audio_stream := by
  induction l with
  | nil => intro i s _; simp [findAVCodecLoop, scanStream]
  | cons st rest ih =>
    intro i s hi
    simp only [findAVCodecLoop, scanStream]
    split_ifs <;> simp_all [ih (i + 1) _ (by omega)] <;> omega

/-- The subtitle slot after the loop. -/
theorem findAVCodecLoop_subtitle (lib : LibAV) (l : List AVStream) :
    ∀ (i : Int) (s : AVDemuxer), 0 ≤ i →
      (findAVCodecLoop lib l i s).2.subtitle_stream =
        if s.subtitle_stream < 0 then scanStream AVMediaType.subtitle s.subtitle_stream l i
        else s.subtitle_stream := by
  induction l with
  | nil => intro i s _; simp [findAVCodecLoop, scanStream]
  | cons st rest ih =>
    intro i s hi
    simp only [findAVCodecLoop, scanStream]
    split_ifs <;> simp_all [ih (i + 1) _ (by omega)] <;> omega

/-- The video codec context after the loop: captured, with the threading
hints, from the first video stream when the slot was not yet found. -/
theorem findAVCodecLoop_vctx (lib : LibAV) (l : List AVStream) :
    ∀ (i : Int) (s : AVDemuxer), 0 ≤ i →
      (findAVCodecLoop lib l i s).2.v_codec_context =
        if s.video_stream < 0 then
          match l.find? (fun st => decide (st.codec.codec_type = AVMediaType.video)) with
          | some st => some (threadHints lib st.codec)
          | none => s.v_codec_context
        else s.v_codec_context := by
  induction l with
  | nil => intro i s _; simp [findAVCodecLoop]
  | cons st rest ih =>
    intro i s hi
    simp only [findAVCodecLoop, List.find?_cons, threadHints]
    split_ifs <;> simp_all [ih (i + 1) _ (by omega), threadHints] <;> omega

/-- The audio codec context after the loop: captured from the first audio
stream when the slot was not yet found. -/
theorem findAVCodecLoop_actx (lib : LibAV) (l : List AVStream) :
    ∀ (i : Int) (s : AVDemuxer), 0 ≤ i →
      (findAVCodecLoop lib l i s).2.a_codec_context =
        if s.audio_stream < 0 then
          match l.find? (fun st => decide (st.codec.codec_type = AVMediaType.audio)) with
          | some st => some st.codec
          | none => s.a_codec_context
        else s.a_codec_context := by
  induction l with
  | nil => intro i s _; simp [findAVCodecLoop]
  | cons st rest ih =>
    intro i s hi
    simp only [findAVCodecLoop, List.find?_cons]
    split_ifs <;> simp_all [ih (i + 1) _ (by omega)] <;> omega

/-- The loop returns true exactly when it ends with all three slots found,
provided it did not start so. -/
theorem findAVCodecLoop_ret (lib : LibAV) (l : List AVStream) :
    ∀ (i : Int) (s : AVDemuxer),
      ¬ (s.audio_stream ≥ 0 ∧ s.video_stream ≥ 0 ∧ s.subtitle_stream ≥ 0) →
      ((findAVCodecLoop lib l i s).1 = true ↔
        ((findAVCodecLoop lib l i s).2.audio_stream ≥ 0 ∧
         (findAVCodecLoop lib l i s).2.video_stream ≥ 0 ∧
         (findAVCodecLoop lib l i s).2.subtitle_stream ≥ 0)) := by
  induction l with
  | nil => intro i s h; simp [findAVCodecLoop]; simpa using h
  | cons st rest ih =>
    intro i s h
    simp only [findAVCodecLoop]
    split_ifs with h1 h2 h3 h4 h5 h6 h7 h8
    all_goals first
      | (simp only [true_iff]; assumption)
      | (apply ih; assumption)

/-- What the scan returns: the default when no stream of the type exists, and
otherwise the position of the first stream of the type. -/
theorem scanStream_spec (t : AVMediaType) (d : Int) (l : List AVStream) :
    ∀ i : Int,
      (scanStream t d l i = d ∧ ∀ st ∈ l, st.codec.codec_type ≠ t) ∨
      (∃ (n : Nat) (st : AVStream), scanStream t d l i = i + n ∧ l[n]? = some st ∧
        st.codec.codec_type = t ∧
        ∀ (m : Nat) (st2 : AVStream), m < n → l[m]? = some st2 → st2.codec.codec_type ≠ t) := by
  induction l with
  | nil => intro i; left; simp [scanStream]
  | cons st rest ih =>
    intro i
    by_cases h : st.codec.codec_type = t
    · right
      refine ⟨0, st, by simp [scanStream, h], by simp, h, ?_⟩
      intro m st2 hm; omega
    · rcases ih (i + 1) with ⟨h1, h2⟩ | ⟨n, st1, h1, h2, h3, h4⟩
      · left
        refine ⟨by simp [scanStream, h, h1], ?_⟩
        intro st2 hst2
        rcases List.mem_cons.mp hst2 with rfl | hmem
        · exact h
        · exact h2 st2 hmem
      · right
        refine ⟨n + 1, st1, ?_, by simpa using h2, h3, ?_⟩
        · simp [scanStream, h, h1]; omega
        · intro m st2 hm hget
          cases m with
          | zero => simp at hget; subst hget; exact h
          | succ k => exact h4 k st2 (by omega) (by simpa using hget)

/-- The scan from index 0 with default -1 meets the specification of a slot. -/
theorem scanStream_first (t : AVMediaType) (l : List AVStream) :
    FirstOfType t l (scanStream t (-1) l 0) := by
  rcases scanStream_spec t (-1) l 0 with ⟨h1, h2⟩ | ⟨n, st, h1, h2, h3, h4⟩
  · exact Or.inl ⟨h1, h2⟩
  · exact Or.inr ⟨n, st, by omega, h2, h3, h4⟩

/-- A slot that meets the specification is found exactly when it is not -1. -/
theorem FirstOfType.nonneg_iff {t : AVMediaType} {l : List AVStream} {k : Int}
    (h : FirstOfType t l k) : k ≥ 0 ↔ k ≠ -1 := by
  rcases h with ⟨h1, _⟩ | ⟨n, st, h1, _⟩ <;> omega

/-- The scan of `findAVCodec`, run on a state with a container and at least one
unresolved slot. -/
theorem findAVCodec_scan (lib : LibAV) (s : AVDemuxer) (fc : AVFormatContext)
    (hfc : s.format_context = some fc)
    (hun : s.video_stream = -2 ∨ s.audio_stream = -2 ∨ s.subtitle_stream = -2) :
    findAVCodec lib s = .ok (findAVCodecLoop lib fc.streams 0
      { s with video_stream := -1, audio_stream := -1, subtitle_stream := -1 }) := by
  unfold findAVCodec
  have hc : ¬ (s.video_stream ≠ -2 ∧ s.audio_stream ≠ -2 ∧ s.subtitle_stream ≠ -2) := by
    rintro ⟨h1, h2, h3⟩
    rcases hun with h | h | h <;> contradiction
  simp [hc, hfc]

/-! ## Lemmas on close and loadFile -/

/-- The state after `close()` in closed form. -/
theorem close_eq (s : AVDemuxer) :
    close s = (true, { s with eof := false, stream_idx := -1, audio_stream := -2,
                              video_stream := -2, subtitle_stream := -2,
                              __interrupt_status := 0, a_codec_context := none,
                              v_codec_context := none, format_context := none }) := by
  obtain ⟨st, e, pk, ip, si, a, v, sb, inp, fc, ac, vc, fn, mc, is, it, tm, sk⟩ := s
  cases fc <;> cases ac <;> cases vc <;> simp [close]

/-- The threading hints leave the codec id unchanged. -/
theorem threadHints_codec_id (lib : LibAV) (v : AVCodecContext) :
    (threadHints lib v).codec_id = v.codec_id := by
  unfold threadHints; split_ifs <;> rfl

/-- With a clock attached the clock step of `loadFile` succeeds and changes the
clock only. -/
theorem selectClock_some (s : AVDemuxer) (b : Bool) (clk : AVClock)
    (h : s.master_clock = some clk) :
    ∃ clk2, selectClock s b = .ok { s with master_clock := some clk2 } := by
  unfold selectClock
  rw [h]
  by_cases ha : clk.isClockAuto = true
  · cases b
    · exact ⟨{ clk with clock_type := ClockType.ExternalClock }, by simp [ha]⟩
    · exact ⟨{ clk with clock_type := ClockType.AudioClock }, by simp [ha]⟩
  · refine ⟨clk, ?_⟩
    simp only [ha]
    obtain ⟨st, e, pk, ip, si, a, v, sb, inp, fc, ac, vc, fn, mc, is, it, tm, sk⟩ := s
    simp at h
    simp [h]

/-- Without a clock the clock step of `loadFile` dereferences a null pointer. -/
theorem selectClock_none (s : AVDemuxer) (b : Bool) (h : s.master_clock = none) :
    selectClock s b = .error Fault.nullDeref := by
  unfold selectClock; rw [h]

/-- The video step of `loadFile` returns, changes the video codec context only,
and reports a usable video decoder exactly when one was found and opened. -/
theorem openVideo_spec (lib : LibAV) (s : AVDemuxer) :
    ∃ (hv : Bool) (vc : Option AVCodecContext),
      openVideo lib s = .ok (hv, { s with v_codec_context := vc }) ∧
      (hv = true ↔ ∃ v c, s.v_codec_context = some v ∧
        lib.avcodec_find_decoder v.codec_id = some c ∧ 0 ≤ lib.avcodec_open2 v (some c)) := by
  unfold openVideo
  cases hvc : s.v_codec_context with
  | none =>
    refine ⟨false, none, ?_, by simp⟩
    obtain ⟨st, e, pk, ip, si, a, v, sb, inp, fc, ac, vc, fn, mc, is, it, tm, sk⟩ := s
    simp at hvc
    simp [hvc]
  | some v =>
    cases hd : lib.avcodec_find_decoder v.codec_id with
    | none =>
      have := lib.open2_no_codec v
      exact ⟨false, some { v with skip_default := true, fast := false },
        by simp [hd, this], by simp [hd]⟩
    | some c =>
      by_cases hr : lib.avcodec_open2 v (some c) < 0
      · exact ⟨false, some { v with skip_default := true, fast := false },
          by simp [hd, hr], by simp [hd]; omega⟩
      · exact ⟨true, some { (if c.cap_dr1 then { v with emu_edge := true } else v) with
            skip_default := true, fast := false },
          by simp [hd, hr], by simp [hd]; omega⟩

/-- The run of `loadFile` once the open-input and probe steps have succeeded. -/
theorem loadFile_after_probe (lib : LibAV) (s : AVDemuxer) (now : Int) (f : String)
    (r1 r2 : Int) (c1 c2 : AVFormatContext)
    (ho : lib.avformat_open_input f = (r1, c1)) (h1 : 0 ≤ r1)
    (hp : lib.avformat_find_stream_info { c1 with genpts := true } = (r2, c2))
    (h2 : 0 ≤ r2) :
    loadFile lib s now f =
      match selectClock (findAVCodecLoop lib c2.streams 0 (probedState s f c2)).2
          (openAudio lib (findAVCodecLoop lib c2.streams 0 (probedState s f c2)).2) with
      | .error e => .error e
      | .ok s2 =>
        match openVideo lib s2 with
        | .error e => .error e
        | .ok (hv, s3) =>
          .ok (openAudio lib (findAVCodecLoop lib c2.streams 0 (probedState s f c2)).2 || hv,
            { s3 with started_ := false }) := by
  unfold loadFile
  simp only [close_eq, ho, hp, not_lt.mpr h1, not_lt.mpr h2, if_false]
  rw [findAVCodec_scan lib _ c2 rfl (Or.inl rfl)]
  rfl

/-- The audio step of `loadFile` reports a usable audio decoder exactly when
one was found and opened. -/
theorem openAudio_spec (lib : LibAV) (s : AVDemuxer) :
    openAudio lib s = true ↔ ∃ a c, s.a_codec_context = some a ∧
      lib.avcodec_find_decoder a.codec_id = some c ∧ 0 ≤ lib.avcodec_open2 a (some c) := by
  unfold openAudio
  cases s.a_codec_context with
  | none => simp
  | some a =>
    cases hd : lib.avcodec_find_decoder a.codec_id with
    | none => simp [hd]
    | some c => simp [hd]

/-- The state after `close()` is the closed state. -/
theorem closedState_close (s : AVDemuxer) : closedState (close s).2 := by
  simp [close_eq, closedState]

/-! ## Lemmas on readFrame -/

/-- With a container, `videoStream()` returns and caches `videoIndex`. -/
theorem videoStream_ok (s : AVDemuxer) (fc : AVFormatContext) (h : s.format_context = some fc) :
    videoStream s = .ok (videoIndex s fc, { s with video_stream := videoIndex s fc }) := by
  unfold videoStream videoIndex
  by_cases hv : s.video_stream ≠ -2
  · rw [if_pos hv, if_pos hv]
  · rw [if_neg hv, if_neg hv, h]

/-- With a container, `audioStream()` returns and caches `audioIndex`. -/
theorem audioStream_ok (s : AVDemuxer) (fc : AVFormatContext) (h : s.format_context = some fc) :
    audioStream s = .ok (audioIndex s fc, { s with audio_stream := audioIndex s fc }) := by
  unfold audioStream audioIndex
  by_cases hv : s.audio_stream ≠ -2
  · rw [if_pos hv, if_pos hv]
  · rw [if_neg hv, if_neg hv, h]

/-- A read at end-of-stream on a session not yet at its end: false, with the
end-of-stream flag set, the started flag cleared and `finished` emitted. -/
theorem readFrame_eof_first (s : AVDemuxer) (now : Int) (p : AVPacket) (fc : AVFormatContext)
    (hfc : s.format_context = some fc) (he : s.eof = false) :
    readFrame s now AVERROR_EOF p =
      .ok (false, { s with __interrupt_timer := { t0 := none }, eof := true, started_ := false },
        [Signal.finished]) := by
  unfold readFrame
  simp [hfc, he, AVERROR_EOF, QElapsedTimer.invalidate]

/-- A read at end-of-stream on a session already at its end: false, no signal,
and only the interrupt timer is touched. -/
theorem readFrame_eof_again (s : AVDemuxer) (now : Int) (p : AVPacket) (fc : AVFormatContext)
    (hfc : s.format_context = some fc) (he : s.eof = true) :
    readFrame s now AVERROR_EOF p =
      .ok (false, { s with __interrupt_timer := { t0 := none } }, []) := by
  unfold readFrame
  simp [hfc, he, AVERROR_EOF, QElapsedTimer.invalidate]

/-- The started check changes the started flag only and emits no `finished`. -/
theorem startedStep_frame (s : AVDemuxer) :
    ∃ st, (startedStep s).1 = { s with started_ := st } ∧
      Signal.finished ∉ (startedStep s).2 := by
  unfold startedStep
  split_ifs
  · exact ⟨true, rfl, by simp⟩
  · exact ⟨true, rfl, by simp⟩
  · exact ⟨s.started_, rfl, by simp⟩

/-- With a container, the selection test returns: it is true exactly when the
current stream index is neither the video nor the audio index, and it changes
the two cached slots only. -/
theorem notSelected_ok (s : AVDemuxer) (fc : AVFormatContext)
    (h : s.format_context = some fc) :
    ∃ a, notSelected s =
      .ok (decide (s.stream_idx ≠ videoIndex s fc ∧ s.stream_idx ≠ audioIndex s fc),
        { s with video_stream := videoIndex s fc, audio_stream := a }) := by
  unfold notSelected
  rw [videoStream_ok s fc h]
  by_cases hv : s.stream_idx ≠ videoIndex s fc
  · refine ⟨audioIndex s fc, ?_⟩
    have h2 := audioStream_ok { s with video_stream := videoIndex s fc } fc h
    simp only [audioIndex] at h2
    simp [hv, h2, audioIndex]
  · refine ⟨s.audio_stream, ?_⟩
    simp [hv]

/-- The run of `readFrame` after a successful read on a session with a
container: a packet of a stream that is neither the video nor the audio stream
gives false and leaves the packet slot alone; any other packet is copied. -/
theorem readFrame_ok_form (s : AVDemuxer) (now : Int) (p : AVPacket) (fc : AVFormatContext)
    (hfc : s.format_context = some fc) :
    ∃ (st : Bool) (a : Int),
      readFrame s now 0 p =
        if p.stream_index ≠ videoIndex s fc ∧ p.stream_index ≠ audioIndex s fc then
          .ok (false,
            { afterRead s p with started_ := st, video_stream := videoIndex s fc,
                                 audio_stream := a },
            (startedStep (afterRead s p)).2)
        else
          match fillPacket fc p.stream_index p s.pkt with
          | .error e => .error e
          | .ok pkt =>
            .ok (true,
              { afterRead s p with started_ := st, video_stream := videoIndex s fc,
                                   audio_stream := a, pkt := pkt },
              (startedStep (afterRead s p)).2) := by
  obtain ⟨st, hst, _⟩ := startedStep_frame (afterRead s p)
  obtain ⟨a, ha⟩ := notSelected_ok { afterRead s p with started_ := st } fc
    (by simpa [afterRead] using hfc)
  refine ⟨st, a, ?_⟩
  have hS : startedStep (afterRead s p) =
      ({ afterRead s p with started_ := st }, (startedStep (afterRead s p)).2) := by
    rw [← hst]
  unfold readFrame
  simp only [QElapsedTimer.invalidate, ne_eq, not_true_eq_false, if_false]
  split
  · rename_i h0
    rw [hfc] at h0
    cases h0
  rename_i fc2 h0
  have hfc2 : fc = fc2 := by
    rw [hfc] at h0
    exact Option.some.inj h0
  subst hfc2
  change ((match startedStep (afterRead s p) with
    | (s, sig) =>
      match notSelected s with
      | Except.error e => Except.error e
      | Except.ok (true, s) => Except.ok (false, s, sig)
      | Except.ok (false, s) =>
        match fillPacket fc s.stream_idx p s.pkt with
        | Except.error e => Except.error e
        | Except.ok pkt => Except.ok (true, { s with pkt := pkt }, sig)) :
      Except Fault (Bool × AVDemuxer × List Signal)) = _
  rw [hS]
  simp only [ha]
  by_cases hsel : p.stream_index ≠ videoIndex s fc ∧ p.stream_index ≠ audioIndex s fc
  · have : decide ((afterRead s p).stream_idx ≠ videoIndex
        { afterRead s p with started_ := st } fc ∧
        (afterRead s p).stream_idx ≠ audioIndex { afterRead s p with started_ := st } fc)
        = true := by
      simpa [afterRead, videoIndex, audioIndex] using hsel
    simp only [this, if_pos hsel]
    rfl
  · have : decide ((afterRead s p).stream_idx ≠ videoIndex
        { afterRead s p with started_ := st } fc ∧
        (afterRead s p).stream_idx ≠ audioIndex { afterRead s p with started_ := st } fc)
        = false := by
      simpa [afterRead, videoIndex, audioIndex] using hsel
    simp only [this, if_neg hsel]
    rfl

/-- A read that returns keeps the container handle; when the library did not
report end-of-stream it keeps the end-of-stream flag and emits no `finished`. -/
theorem readFrame_ok_frame (s : AVDemuxer) (now ret : Int) (p : AVPacket)
    (b : Bool) (s2 : AVDemuxer) (sig : List Signal)
    (h : readFrame s now ret p = .ok (b, s2, sig)) :
    s2.format_context = s.format_context ∧
    (ret ≠ AVERROR_EOF → s2.eof = s.eof ∧ Signal.finished ∉ sig) := by
  cases hfc : s.format_context with
  | none => simp [readFrame, hfc] at h
  | some fc =>
    by_cases hr : ret = 0
    · subst hr
      obtain ⟨st, a, hform⟩ := readFrame_ok_form s now p fc hfc
      obtain ⟨_, _, hsig⟩ := startedStep_frame (afterRead s p)
      rw [hform] at h
      split_ifs at h
      · simp only [Except.ok.injEq, Prod.mk.injEq] at h
        obtain ⟨_, rfl, rfl⟩ := h
        exact ⟨by simpa [afterRead] using hfc, fun _ => ⟨by simp [afterRead], hsig⟩⟩
      · cases hfp : fillPacket fc p.stream_index p s.pkt with
        | error e => simp [hfp] at h
        | ok pkt =>
          simp only [hfp, Except.ok.injEq, Prod.mk.injEq] at h
          obtain ⟨_, rfl, rfl⟩ := h
          exact ⟨by simpa [afterRead] using hfc, fun _ => ⟨by simp [afterRead], hsig⟩⟩
    · unfold readFrame at h
      simp only [hfc, ne_eq, hr, not_false_eq_true, if_true] at h
      by_cases he : ret = AVERROR_EOF
      · simp only [he, if_true] at h
        split_ifs at h
        · simp only [Except.ok.injEq, Prod.mk.injEq] at h
          obtain ⟨_, rfl, rfl⟩ := h
          exact ⟨rfl, fun hne => absurd he hne⟩
        · simp only [Except.ok.injEq, Prod.mk.injEq] at h
          obtain ⟨_, rfl, rfl⟩ := h
          exact ⟨rfl, fun hne => absurd he hne⟩
      · simp only [he, if_false, Except.ok.injEq, Prod.mk.injEq] at h
        obtain ⟨_, rfl, rfl⟩ := h
        exact ⟨rfl, fun _ => ⟨rfl, by simp⟩⟩

/-- A run of reads over two lists in sequence. -/
theorem readFrames_append (l1 l2 : List (Int × Int × AVPacket)) :
    ∀ s : AVDemuxer, readFrames s (l1 ++ l2) =
      match readFrames s l1 with
      | .error e => .error e
      | .ok (bs, s1, sg) =>
        match readFrames s1 l2 with
        | .error e => .error e
        | .ok (bs2, s2, sg2) => .ok (bs ++ bs2, s2, sg ++ sg2) := by
  induction l1 with
  | nil =>
    intro s
    simp only [List.nil_append, readFrames]
    cases readFrames s l2 with
    | error e => rfl
    | ok r => obtain ⟨bs2, s2, sg2⟩ := r; simp
  | cons c rest ih =>
    intro s
    obtain ⟨now, ret, p⟩ := c
    show readFrames s ((now, ret, p) :: (rest ++ l2)) = _
    rw [readFrames, readFrames]
    cases readFrame s now ret p with
    | error e => rfl
    | ok r =>
      obtain ⟨b, s1, sg⟩ := r
      simp only [ih s1]
      cases readFrames s1 rest with
      | error e => rfl
      | ok r1 =>
        obtain ⟨bs1, s2, sg1⟩ := r1
        simp only
        cases readFrames s2 l2 with
        | error e => rfl
        | ok r2 => obtain ⟨bs2, s3, sg2⟩ := r2; simp

/-- A run of reads none of which is at end-of-stream keeps the container handle
and the end-of-stream flag and emits no `finished`. -/
theorem readFrames_no_eof (l : List (Int × Int × AVPacket)) :
    ∀ (s : AVDemuxer) (bs : List Bool) (s1 : AVDemuxer) (sg : List Signal),
      (∀ c ∈ l, c.2.1 ≠ AVERROR_EOF) → readFrames s l = .ok (bs, s1, sg) →
      s1.format_context = s.format_context ∧ s1.eof = s.eof ∧ Signal.finished ∉ sg := by
  induction l with
  | nil =>
    intro s bs s1 sg _ h
    simp only [readFrames, Except.ok.injEq, Prod.mk.injEq] at h
    obtain ⟨_, rfl, rfl⟩ := h
    simp
  | cons c rest ih =>
    intro s bs s1 sg hne h
    obtain ⟨now, ret, p⟩ := c
    simp only [readFrames] at h
    cases h1 : readFrame s now ret p with
    | error e => simp [h1] at h
    | ok r =>
      obtain ⟨b, sa, sga⟩ := r
      simp only [h1] at h
      cases h2 : readFrames sa rest with
      | error e => simp [h2] at h
      | ok r2 =>
        obtain ⟨bs2, sb, sgb⟩ := r2
        simp only [h2, Except.ok.injEq, Prod.mk.injEq] at h
        obtain ⟨_, rfl, rfl⟩ := h
        obtain ⟨f1, f2⟩ := readFrame_ok_frame s now ret p b sa sga h1
        obtain ⟨e1, e2⟩ := f2 (hne (now, ret, p) (List.mem_cons_self _ _))
        obtain ⟨g1, g2, g3⟩ := ih sa bs2 sb sgb
          (fun c hc => hne c (List.mem_cons_of_mem _ hc)) h2
        refine ⟨g1.trans f1, g2.trans e1, ?_⟩
        simp [e2, g3]

/-- A run of end-of-stream reads on a session already at its end: every read
returns false, nothing is emitted, and the flags stay as they are. -/
theorem readFrames_eof_again (l : List (Int × Int × AVPacket)) :
    ∀ (s : AVDemuxer) (fc : AVFormatContext), s.format_context = some fc → s.eof = true →
      (∀ c ∈ l, c.2.1 = AVERROR_EOF) →
      ∃ s2, readFrames s l = .ok (List.replicate l.length false, s2, []) ∧
        s2.eof = true ∧ s2.started_ = s.started_ := by
  induction l with
  | nil => intro s fc _ he _; exact ⟨s, rfl, he, rfl⟩
  | cons c rest ih =>
    intro s fc hfc he hall
    obtain ⟨now, ret, p⟩ := c
    have hret : ret = AVERROR_EOF := hall (now, ret, p) (List.mem_cons_self _ _)
    subst hret
    obtain ⟨s2, h2, h3, h4⟩ := ih { s with __interrupt_timer := { t0 := none } } fc hfc he
      (fun c hc => hall c (List.mem_cons_of_mem _ hc))
    refine ⟨s2, ?_, h3, h4⟩
    simp only [readFrames, readFrame_eof_again s now p fc hfc he, h2, List.length_cons,
      List.replicate_succ, List.nil_append]

/-- What a successful copy into the packet slot produces. -/
theorem fillPacket_ok (fc : AVFormatContext) (idx : Int) (p : AVPacket) (pkt pk2 : Packet)
    (h : fillPacket fc idx p pkt = .ok pk2) :
    ∃ stream, 0 ≤ idx ∧ fc.streams[idx.toNat]? = some stream ∧ pk2.data = p.data ∧
      pk2.pts = (if p.dts ≠ AV_NOPTS_VALUE then (p.dts : ℚ)
                 else if p.pts ≠ AV_NOPTS_VALUE then (p.pts : ℚ) else 0)
                * av_q2d stream.time_base ∧
      pk2.duration =
        (if stream.codec.codec_type = AVMediaType.subtitle ∧ p.key = true
            ∧ p.convergence_duration ≠ AV_NOPTS_VALUE then
          (p.convergence_duration : ℚ) * av_q2d stream.time_base
         else if p.duration > 0 then (p.duration : ℚ) * av_q2d stream.time_base
         else 0) := by
  unfold fillPacket at h
  by_cases hi : idx < 0
  · simp [hi] at h
  · simp only [hi, if_false] at h
    cases hs : fc.streams[idx.toNat]? with
    | none => simp [hs] at h
    | some stream =>
      simp only [hs] at h
      refine ⟨stream, by omega, rfl, ?_⟩
      split_ifs at h ⊢ <;> simp only [Except.ok.injEq] at h <;> subst h <;> simp

/-- A read that returns true: the library call succeeded, the packet belongs to
the video or the audio stream, and the packet slot holds the copy. -/
theorem readFrame_true (s : AVDemuxer) (now ret : Int) (p : AVPacket)
    (s2 : AVDemuxer) (sig : List Signal)
    (h : readFrame s now ret p = .ok (true, s2, sig)) :
    ∃ fc pk2, s.format_context = some fc ∧ ret = 0 ∧
      (p.stream_index = videoIndex s fc ∨ p.stream_index = audioIndex s fc) ∧
      fillPacket fc p.stream_index p s.pkt = .ok pk2 ∧ s2.pkt = pk2 := by
  cases hfc : s.format_context with
  | none => simp [readFrame, hfc] at h
  | some fc =>
    by_cases hr : ret = 0
    · subst hr
      obtain ⟨st, a, hform⟩ := readFrame_ok_form s now p fc hfc
      rw [hform] at h
      split_ifs at h with hsel
      · simp at h
      · cases hfp : fillPacket fc p.stream_index p s.pkt with
        | error e => simp [hfp] at h
        | ok pkt =>
          simp only [hfp, Except.ok.injEq, Prod.mk.injEq, true_and] at h
          obtain ⟨rfl, _⟩ := h
          refine ⟨fc, pkt, rfl, rfl, ?_, hfp, rfl⟩
          by_contra hcon
          exact hsel ⟨fun e => hcon (Or.inl e), fun e => hcon (Or.inr e)⟩
    · unfold readFrame at h
      simp only [hfc, ne_eq, hr, not_false_eq_true, if_true] at h
      split_ifs at h <;> simp at h

/-! ## The claims -/

/-- C1: for a non-null callback argument, `__interrupt_cb` returns 1 exactly when
the manual interrupt status is positive or the interrupt timer is valid and its
elapsed time exceeds the timeout, and returns 0 in every other case. -/
theorem interrupt_cb_iff (now : Int) (d : AVDemuxer) :
    (__interrupt_cb now (some d) = 1 ↔
      (0 < d.__interrupt_status ∨
        (d.__interrupt_timer.isValid = true ∧
          d.__interrupt_timeout < d.__interrupt_timer.elapsed now))) ∧
    (__interrupt_cb now (some d) = 0 ↔
      ¬ (0 < d.__interrupt_status ∨
        (d.__interrupt_timer.isValid = true ∧
          d.__interrupt_timeout < d.__interrupt_timer.elapsed now))) := by
  unfold __interrupt_cb QElapsedTimer.hasExpired
  by_cases h1 : d.__interrupt_status > 0
  · simp [h1]
  · by_cases h2 : d.__interrupt_timer.isValid = true
    · by_cases h3 : d.__interrupt_timeout < d.__interrupt_timer.elapsed now
      · simp [h1, h2, h3]
      · simp [h1, h2, h3]
    · simp [h1, h2]

/-- C5: `close()` always returns true and is idempotent: a second `close()`
returns true and leaves the closed state unchanged; in that state the handle and
both codec contexts are absent, the three stream slots are unresolved, the
end-of-stream flag is false, the interrupt status is 0 and the current stream
index is -1. -/
theorem close_idempotent (s : AVDemuxer) :
    (close s).1 = true ∧
    close (close s).2 = (true, (close s).2) ∧
    (close s).2.format_context = none ∧
    (close s).2.a_codec_context = none ∧
    (close s).2.v_codec_context = none ∧
    (close s).2.audio_stream = -2 ∧
    (close s).2.video_stream = -2 ∧
    (close s).2.subtitle_stream = -2 ∧
    (close s).2.eof = false ∧
    (close s).2.__interrupt_status = 0 ∧
    (close s).2.stream_idx = -1 := by
  obtain ⟨st, e, pk, ip, si, a, v, sb, inp, fc, ac, vc, fn, mc, is, it, tm, sk⟩ := s
  cases fc <;> cases ac <;> cases vc <;> simp [close]

/-- C6 (the code at the failing input): after `close()` the queries
`fileName()`, `duration()`, `startTime()` and `bitRate()` dereference the absent
container handle. -/
theorem metadata_after_close_faults (s : AVDemuxer) :
    fileName (close s).2 = .error Fault.nullDeref ∧
    duration (close s).2 = .error Fault.nullDeref ∧
    startTime (close s).2 = .error Fault.nullDeref ∧
    bitRate (close s).2 = .error Fault.nullDeref := by
  obtain ⟨st, e, pk, ip, si, a, v, sb, inp, fc, ac, vc, fn, mc, is, it, tm, sk⟩ := s
  cases fc <;> cases ac <;> cases vc <;> simp [close, fileName, duration, startTime, bitRate]

/-- C7: on an opened container, `findAVCodec` started with at least one
unresolved slot returns, leaves each of the video, audio and subtitle slots equal
to the smallest index of a stream of that type, or -1 when there is none, and
returns true exactly when all three roles were found. -/
theorem findAVCodec_first_of_type (lib : LibAV) (s : AVDemuxer) (fc : AVFormatContext)
    (hfc : s.format_context = some fc)
    (hun : s.video_stream = -2 ∨ s.audio_stream = -2 ∨ s.subtitle_stream = -2) :
    ∃ (b : Bool) (s2 : AVDemuxer), findAVCodec lib s = .ok (b, s2) ∧
      FirstOfType AVMediaType.video fc.streams s2.video_stream ∧
      FirstOfType AVMediaType.audio fc.streams s2.audio_stream ∧
      FirstOfType AVMediaType.subtitle fc.streams s2.subtitle_stream ∧
      (b = true ↔
        (s2.video_stream ≠ -1 ∧ s2.audio_stream ≠ -1 ∧ s2.subtitle_stream ≠ -1)) := by
  refine ⟨_, _, findAVCodec_scan lib s fc hfc hun, ?_⟩
  have hv := findAVCodecLoop_video lib fc.streams 0
    { s with video_stream := -1, audio_stream := -1, subtitle_stream := -1 } (le_refl 0)
  have ha := findAVCodecLoop_audio lib fc.streams 0
    { s with video_stream := -1, audio_stream := -1, subtitle_stream := -1 } (le_refl 0)
  have hs := findAVCodecLoop_subtitle lib fc.streams 0
    { s with video_stream := -1, audio_stream := -1, subtitle_stream := -1 } (le_refl 0)
  have hr := findAVCodecLoop_ret lib fc.streams 0
    { s with video_stream := -1, audio_stream := -1, subtitle_stream := -1 } (by simp)
  simp only [Int.reduceNeg, Int.reduceLT, if_true] at hv ha hs
  have fv : FirstOfType AVMediaType.video fc.streams _ := hv ▸ scanStream_first _ _
  have fa : FirstOfType AVMediaType.audio fc.streams _ := ha ▸ scanStream_first _ _
  have fs : FirstOfType AVMediaType.subtitle fc.streams _ := hs ▸ scanStream_first _ _
  refine ⟨fv, fa, fs, ?_⟩
  rw [hr, fv.nonneg_iff, fa.nonneg_iff, fs.nonneg_iff]
  tauto

/-- C7 at a container with an audio stream followed by two video streams: the
audio slot is 0, the video slot 1, the subtitle slot -1, and the result false. -/
theorem findAVCodec_first_of_type_witness :
    ∃ (b : Bool) (s2 : AVDemuxer),
      findAVCodec (mkLib 0 0 [])
        { newDemuxer 5000 with
          format_context := some (mkFormat [mkStream AVMediaType.audio 3,
            mkStream AVMediaType.video 28, mkStream AVMediaType.video 13]) } = .ok (b, s2) ∧
      FirstOfType AVMediaType.video [mkStream AVMediaType.audio 3,
            mkStream AVMediaType.video 28, mkStream AVMediaType.video 13] s2.video_stream ∧
      FirstOfType AVMediaType.audio [mkStream AVMediaType.audio 3,
            mkStream AVMediaType.video 28, mkStream AVMediaType.video 13] s2.audio_stream ∧
      FirstOfType AVMediaType.subtitle [mkStream AVMediaType.audio 3,
            mkStream AVMediaType.video 28, mkStream AVMediaType.video 13] s2.subtitle_stream ∧
      (b = true ↔
        (s2.video_stream ≠ -1 ∧ s2.audio_stream ≠ -1 ∧ s2.subtitle_stream ≠ -1)) :=
  findAVCodec_first_of_type (mkLib 0 0 [])
    { newDemuxer 5000 with
      format_context := some (mkFormat [mkStream AVMediaType.audio 3,
        mkStream AVMediaType.video 28, mkStream AVMediaType.video 13]) }
    (mkFormat [mkStream AVMediaType.audio 3,
        mkStream AVMediaType.video 28, mkStream AVMediaType.video 13]) rfl (Or.inl rfl)

/-- C2: with a clock attached and the open-input and probe steps successful,
`loadFile` returns, and returns true exactly when the audio decoder or the video
decoder was found and initialised; with neither it returns false. -/
theorem loadFile_true_iff (lib : LibAV) (s : AVDemuxer) (now : Int) (f : String)
    (clk : AVClock) (hclk : s.master_clock = some clk)
    (hopen : 0 ≤ (lib.avformat_open_input f).1)
    (hprobe : 0 ≤ (lib.avformat_find_stream_info
      { (lib.avformat_open_input f).2 with genpts := true }).1) :
    ∃ (b : Bool) (s2 : AVDemuxer), loadFile lib s now f = .ok (b, s2) ∧
      (b = true ↔
        (usableAudio lib (lib.avformat_find_stream_info
            { (lib.avformat_open_input f).2 with genpts := true }).2 ∨
         usableVideo lib (lib.avformat_find_stream_info
            { (lib.avformat_open_input f).2 with genpts := true }).2)) := by
  rw [loadFile_after_probe lib s now f _ _ _ _ rfl hopen rfl hprobe]
  generalize (lib.avformat_find_stream_info
    { (lib.avformat_open_input f).2 with genpts := true }).2 = fc
  have hA : (findAVCodecLoop lib fc.streams 0 (probedState s f fc)).2.a_codec_context =
      match fc.streams.find? (fun st => decide (st.codec.codec_type = AVMediaType.audio)) with
      | some st => some st.codec
      | none => none := by
    rw [findAVCodecLoop_actx lib fc.streams 0 (probedState s f fc) (le_refl 0)]
    simp [probedState]
  have hV : (findAVCodecLoop lib fc.streams 0 (probedState s f fc)).2.v_codec_context =
      match fc.streams.find? (fun st => decide (st.codec.codec_type = AVMediaType.video)) with
      | some st => some (threadHints lib st.codec)
      | none => none := by
    rw [findAVCodecLoop_vctx lib fc.streams 0 (probedState s f fc) (le_refl 0)]
    simp [probedState]
  have hM : (findAVCodecLoop lib fc.streams 0 (probedState s f fc)).2.master_clock = some clk := by
    obtain ⟨v, a, sb, ac, vc, hF⟩ := findAVCodecLoop_frame lib fc.streams 0 (probedState s f fc)
    rw [hF]; simpa [probedState] using hclk
  obtain ⟨clk2, hC⟩ := selectClock_some _
    (openAudio lib (findAVCodecLoop lib fc.streams 0 (probedState s f fc)).2) clk hM
  obtain ⟨hv, vc2, hO, hOiff⟩ := openVideo_spec lib
    { (findAVCodecLoop lib fc.streams 0 (probedState s f fc)).2 with master_clock := some clk2 }
  rw [hC]
  simp only [hO]
  refine ⟨_, _, rfl, ?_⟩
  rw [Bool.or_eq_true, openAudio_spec, hOiff]
  simp only [hA, hV, usableAudio, usableVideo]
  cases hfa : List.find? (fun st => decide (st.codec.codec_type = AVMediaType.audio)) fc.streams <;>
    cases hfv : List.find? (fun st => decide (st.codec.codec_type = AVMediaType.video)) fc.streams <;>
    simp [threadHints_codec_id]

/-- C4 (the code on a session without a clock): when the open-input and probe
steps succeed, `loadFile` reaches `master_clock->isClockAuto()` and dereferences
the null clock pointer instead of returning. -/
theorem loadFile_without_clock (lib : LibAV) (s : AVDemuxer) (now : Int) (f : String)
    (hclk : s.master_clock = none)
    (hopen : 0 ≤ (lib.avformat_open_input f).1)
    (hprobe : 0 ≤ (lib.avformat_find_stream_info
      { (lib.avformat_open_input f).2 with genpts := true }).1) :
    loadFile lib s now f = .error Fault.nullDeref := by
  rw [loadFile_after_probe lib s now f _ _ _ _ rfl hopen rfl hprobe]
  generalize (lib.avformat_find_stream_info
    { (lib.avformat_open_input f).2 with genpts := true }).2 = fc
  obtain ⟨v, a, sb, ac, vc, hF⟩ := findAVCodecLoop_frame lib fc.streams 0 (probedState s f fc)
  have hM : (findAVCodecLoop lib fc.streams 0 (probedState s f fc)).2.master_clock = none := by
    rw [hF]; simpa [probedState] using hclk
  rw [selectClock_none _ _ hM]

/-- C2 at a container with a decodable audio and a decodable video stream. -/
theorem loadFile_true_iff_witness :
    ∃ (b : Bool) (s2 : AVDemuxer),
      loadFile (mkLib 0 0 demoStreams) clockedDemuxer 0 "clip.mkv" = .ok (b, s2) ∧
      (b = true ↔
        (usableAudio (mkLib 0 0 demoStreams) ((mkLib 0 0 demoStreams).avformat_find_stream_info
            { ((mkLib 0 0 demoStreams).avformat_open_input "clip.mkv").2 with genpts := true }).2 ∨
         usableVideo (mkLib 0 0 demoStreams) ((mkLib 0 0 demoStreams).avformat_find_stream_info
            { ((mkLib 0 0 demoStreams).avformat_open_input "clip.mkv").2 with
              genpts := true }).2)) :=
  loadFile_true_iff (mkLib 0 0 demoStreams) clockedDemuxer 0 "clip.mkv" autoClock rfl
    (by decide) (by decide)

/-- C4 at a freshly constructed demuxer (no clock) and a container that opens and
probes successfully. -/
theorem loadFile_without_clock_witness :
    loadFile (mkLib 0 0 demoStreams) (newDemuxer 5000) 0 "clip.mkv" = .error Fault.nullDeref :=
  loadFile_without_clock (mkLib 0 0 demoStreams) (newDemuxer 5000) 0 "clip.mkv" rfl
    (by decide) (by decide)

/-- C3 fails as stated: after a failed probe `loadFile` returns false with the
container handle still present, and after a run that finds no decodable stream it
returns false with the handle present, the slots resolved and the audio codec
context captured. -/
theorem loadFile_false_not_closed :
    (∃ s2, loadFile (mkLib 0 (-1) demoStreams) (newDemuxer 5000) 0 "clip.mkv" = .ok (false, s2) ∧
      s2.format_context = some { mkFormat demoStreams with genpts := true } ∧
      ¬ closedState s2) ∧
    (∃ s2, loadFile (mkLib 0 0 undecodableStreams) clockedDemuxer 0 "clip.mkv" = .ok (false, s2) ∧
      s2.format_context = some { mkFormat undecodableStreams with genpts := true } ∧
      s2.audio_stream = 1 ∧ s2.video_stream = -1 ∧ s2.subtitle_stream = 0 ∧
      s2.a_codec_context = some (mkCodec AVMediaType.audio (-1)) ∧
      ¬ closedState s2) := by
  constructor
  · refine ⟨_, rfl, rfl, fun h => ?_⟩
    exact absurd (show (some { mkFormat demoStreams with genpts := true } :
      Option AVFormatContext) = none from h.1) (by simp)
  · refine ⟨_, rfl, rfl, rfl, rfl, rfl, rfl, fun h => ?_⟩
    exact absurd (show (some { mkFormat undecodableStreams with genpts := true } :
      Option AVFormatContext) = none from h.1) (by simp)

/-- C3 as amended: when `loadFile` returns false because the open-input step
failed, the session is in the closed state; when it returns false because the
probe failed, the codec contexts are absent and the slots unresolved but the
container handle is present; when it returns false because no decoder could be
initialised, the handle is present and the three slots are resolved; in each
case a following `close()` yields the closed state. -/
theorem loadFile_false_state (lib : LibAV) (s : AVDemuxer) (now : Int) (f : String)
    (r1 r2 : Int) (c1 c2 : AVFormatContext) (s2 : AVDemuxer)
    (ho : lib.avformat_open_input f = (r1, c1))
    (hp : lib.avformat_find_stream_info { c1 with genpts := true } = (r2, c2))
    (h : loadFile lib s now f = .ok (false, s2)) :
    (r1 < 0 → closedState s2) ∧
    (0 ≤ r1 → r2 < 0 →
      s2.format_context = some c2 ∧ s2.a_codec_context = none ∧ s2.v_codec_context = none ∧
      s2.audio_stream = -2 ∧ s2.video_stream = -2 ∧ s2.subtitle_stream = -2) ∧
    (0 ≤ r1 → 0 ≤ r2 →
      s2.format_context = some c2 ∧
      FirstOfType AVMediaType.video c2.streams s2.video_stream ∧
      FirstOfType AVMediaType.audio c2.streams s2.audio_stream ∧
      FirstOfType AVMediaType.subtitle c2.streams s2.subtitle_stream) ∧
    closedState (close s2).2 := by
  refine ⟨fun h1 => ?_, fun h1 h2 => ?_, fun h1 h2 => ?_, closedState_close s2⟩
  · unfold loadFile at h
    simp only [close_eq, ho, h1, if_true, Except.ok.injEq, Prod.mk.injEq, true_and] at h
    subst h
    simp [closedState]
  · unfold loadFile at h
    simp only [close_eq, ho, hp, not_lt.mpr h1, h2, if_true, if_false, Except.ok.injEq,
      Prod.mk.injEq, true_and] at h
    subst h
    simp
  · rw [loadFile_after_probe lib s now f r1 r2 c1 c2 ho h1 hp h2] at h
    have hv := findAVCodecLoop_video lib c2.streams 0 (probedState s f c2) (le_refl 0)
    have ha := findAVCodecLoop_audio lib c2.streams 0 (probedState s f c2) (le_refl 0)
    have hs := findAVCodecLoop_subtitle lib c2.streams 0 (probedState s f c2) (le_refl 0)
    have hF : (findAVCodecLoop lib c2.streams 0 (probedState s f c2)).2.format_context
        = some c2 := by
      obtain ⟨v, a, sb, ac, vc, hF⟩ := findAVCodecLoop_frame lib c2.streams 0 (probedState s f c2)
      rw [hF]; simp [probedState]
    simp only [probedState, Int.reduceNeg, Int.reduceLT, if_true] at hv ha hs
    have fv := scanStream_first AVMediaType.video c2.streams
    have fa := scanStream_first AVMediaType.audio c2.streams
    have fs := scanStream_first AVMediaType.subtitle c2.streams
    rw [← hv] at fv
    rw [← ha] at fa
    rw [← hs] at fs
    cases hm : s.master_clock with
    | none =>
      have hM : (findAVCodecLoop lib c2.streams 0 (probedState s f c2)).2.master_clock
          = none := by
        obtain ⟨v, a, sb, ac, vc, hF⟩ :=
          findAVCodecLoop_frame lib c2.streams 0 (probedState s f c2)
        rw [hF]; simpa [probedState] using hm
      rw [selectClock_none _ _ hM] at h
      simp at h
    | some clk =>
      have hM : (findAVCodecLoop lib c2.streams 0 (probedState s f c2)).2.master_clock
          = some clk := by
        obtain ⟨v, a, sb, ac, vc, hF⟩ :=
          findAVCodecLoop_frame lib c2.streams 0 (probedState s f c2)
        rw [hF]; simpa [probedState] using hm
      obtain ⟨clk2, hC⟩ := selectClock_some _
        (openAudio lib (findAVCodecLoop lib c2.streams 0 (probedState s f c2)).2) clk hM
      obtain ⟨hvid, vc2, hO, _⟩ := openVideo_spec lib
        { (findAVCodecLoop lib c2.streams 0 (probedState s f c2)).2 with
          master_clock := some clk2 }
      rw [hC] at h
      simp only [hO, Except.ok.injEq, Prod.mk.injEq] at h
      obtain ⟨_, h⟩ := h
      subst h
      exact ⟨hF, fv, fa, fs⟩

/-- C3 as amended, at a container whose probe fails: the handle is still
present after the failed `loadFile`, and `close()` then yields the closed state. -/
theorem loadFile_false_state_witness :
    (some { mkFormat demoStreams with genpts := true } : Option AVFormatContext) =
        some { mkFormat demoStreams with genpts := true } ∧
    closedState (close
        { newDemuxer 5000 with
          _file_name := "clip.mkv",
          format_context := some { mkFormat demoStreams with genpts := true } }).2 :=
  have h := loadFile_false_state (mkLib 0 (-1) demoStreams) (newDemuxer 5000) 0 "clip.mkv"
    0 (-1) (mkFormat demoStreams) { mkFormat demoStreams with genpts := true }
    { newDemuxer 5000 with
      _file_name := "clip.mkv",
      format_context := some { mkFormat demoStreams with genpts := true } }
    rfl rfl rfl
  ⟨(h.2.1 (by decide) (by decide)).1, h.2.2.2⟩

/-- C8: on a session with a container that has not yet reached its end, after a
run `pre` of reads without end-of-stream, every read of a non-empty run `eofs` of
end-of-stream reads returns false, the first of them sets the end-of-stream flag,
clears the started flag and emits `finished`, and `finished` is emitted exactly
once over the whole sequence. -/
theorem readFrames_eof_once (s : AVDemuxer) (fc : AVFormatContext)
    (pre eofs : List (Int × Int × AVPacket))
    (bs : List Bool) (s1 : AVDemuxer) (sg : List Signal)
    (hfc : s.format_context = some fc) (he : s.eof = false)
    (hpre : ∀ c ∈ pre, c.2.1 ≠ AVERROR_EOF)
    (heofs : ∀ c ∈ eofs, c.2.1 = AVERROR_EOF) (hne : eofs ≠ [])
    (hrun : readFrames s pre = .ok (bs, s1, sg)) :
    (∀ (now : Int) (p : AVPacket), readFrame s1 now AVERROR_EOF p =
      .ok (false, { s1 with __interrupt_timer := { t0 := none }, eof := true,
                            started_ := false }, [Signal.finished])) ∧
    (∃ s2, readFrames s (pre ++ eofs) =
        .ok (bs ++ List.replicate eofs.length false, s2, sg ++ [Signal.finished]) ∧
      s2.eof = true ∧ s2.started_ = false) ∧
    (sg ++ [Signal.finished]).count Signal.finished = 1 := by
  obtain ⟨g1, g2, g3⟩ := readFrames_no_eof pre s bs s1 sg hpre hrun
  have hfc1 : s1.format_context = some fc := g1.trans hfc
  have he1 : s1.eof = false := g2.trans he
  refine ⟨fun now p => readFrame_eof_first s1 now p fc hfc1 he1, ?_, ?_⟩
  · cases eofs with
    | nil => exact absurd rfl hne
    | cons c rest =>
      obtain ⟨now, ret, p⟩ := c
      have hret : ret = AVERROR_EOF := heofs (now, ret, p) (List.mem_cons_self _ _)
      subst hret
      obtain ⟨s2, h2, h3, h4⟩ := readFrames_eof_again rest
        { s1 with __interrupt_timer := { t0 := none }, eof := true, started_ := false } fc
        hfc1 rfl (fun c hc => heofs c (List.mem_cons_of_mem _ hc))
      refine ⟨s2, ?_, h3, h4⟩
      rw [readFrames_append, hrun]
      simp only [readFrames, readFrame_eof_first s1 now p fc hfc1 he1, h2, List.length_cons,
        List.replicate_succ, List.singleton_append, List.append_nil]
  · rw [List.count_append, List.count_eq_zero_of_not_mem g3]
    rfl

/-- C8 on the opened demo session: a failed read, then two end-of-stream reads. -/
theorem readFrames_eof_once_witness :
    (∃ s2, readFrames openSession
        ([(1, -5, mkPacket 0 0 0)] ++
          [(2, AVERROR_EOF, mkPacket 0 0 0), (3, AVERROR_EOF, mkPacket 0 0 0)]) =
        .ok ([false] ++ List.replicate 2 false, s2, [] ++ [Signal.finished]) ∧
      s2.eof = true ∧ s2.started_ = false) ∧
    ([] ++ [Signal.finished]).count Signal.finished = 1 :=
  (readFrames_eof_once openSession (mkFormat demoStreams)
    [(1, -5, mkPacket 0 0 0)]
    [(2, AVERROR_EOF, mkPacket 0 0 0), (3, AVERROR_EOF, mkPacket 0 0 0)]
    [false] openSession [] rfl rfl (by decide) (by decide) (by simp)
    (by simp [readFrames, readFrame, openSession, clockedDemuxer, newDemuxer, AVERROR_EOF,
      QElapsedTimer.start, QElapsedTimer.invalidate])).2

/-- C9: after a successful read of a packet whose stream index is neither the
index returned by `videoStream()` nor the one returned by `audioStream()`,
`readFrame` returns false and the packet slot is as before the call. -/
theorem readFrame_unselected (s : AVDemuxer) (now : Int) (p : AVPacket) (fc : AVFormatContext)
    (vs as : Int) (sv sa : AVDemuxer)
    (hfc : s.format_context = some fc)
    (hv : videoStream s = .ok (vs, sv)) (ha : audioStream s = .ok (as, sa))
    (h1 : p.stream_index ≠ vs) (h2 : p.stream_index ≠ as) :
    ∃ s2 sig, readFrame s now 0 p = .ok (false, s2, sig) ∧ s2.pkt = s.pkt := by
  rw [videoStream_ok s fc hfc] at hv
  rw [audioStream_ok s fc hfc] at ha
  simp only [Except.ok.injEq, Prod.mk.injEq] at hv ha
  obtain ⟨st, a, hform⟩ := readFrame_ok_form s now p fc hfc
  rw [hform, if_pos ⟨by rw [hv.1]; exact h1, by rw [ha.1]; exact h2⟩]
  exact ⟨_, _, rfl, rfl⟩

/-- C9 on the opened demo session (audio 0, video 1) and a packet of stream 2. -/
theorem readFrame_unselected_witness :
    ∃ s2 sig, readFrame openSession 10 0 (mkPacket 2 50 100) = .ok (false, s2, sig) ∧
      s2.pkt = openSession.pkt :=
  readFrame_unselected openSession 10 (mkPacket 2 50 100) (mkFormat demoStreams)
    1 0 openSession openSession rfl rfl rfl (by decide) (by decide)

/-- C10: when `readFrame` returns true, the timestamp in the packet slot is, with
`n/d` the (well-formed, `d ≠ 0`) time base of the owning stream, `dts*n/d` when
a decode timestamp is present, `pts*n/d` when only a presentation timestamp is
present, and 0 when neither is present. -/
theorem readFrame_timestamp (s : AVDemuxer) (now ret : Int) (p : AVPacket)
    (fc : AVFormatContext) (s2 : AVDemuxer) (sig : List Signal)
    (hfc : s.format_context = some fc)
    (hden : ∀ st ∈ fc.streams, st.time_base.den ≠ 0)
    (h : readFrame s now ret p = .ok (true, s2, sig)) :
    ∃ stream, 0 ≤ p.stream_index ∧ fc.streams[p.stream_index.toNat]? = some stream ∧
      stream.time_base.den ≠ 0 ∧
      (p.dts ≠ AV_NOPTS_VALUE →
        s2.pkt.pts = (p.dts : ℚ) * stream.time_base.num / stream.time_base.den) ∧
      (p.dts = AV_NOPTS_VALUE → p.pts ≠ AV_NOPTS_VALUE →
        s2.pkt.pts = (p.pts : ℚ) * stream.time_base.num / stream.time_base.den) ∧
      (p.dts = AV_NOPTS_VALUE → p.pts = AV_NOPTS_VALUE → s2.pkt.pts = 0) := by
  obtain ⟨fc2, pk2, hfc2, _, _, hfill, hpk⟩ := readFrame_true s now ret p s2 sig h
  rw [hfc] at hfc2
  obtain rfl := Option.some.inj hfc2
  obtain ⟨stream, hi, hs, _, hpts, _⟩ := fillPacket_ok fc p.stream_index p s.pkt pk2 hfill
  refine ⟨stream, hi, hs, hden stream (List.getElem?_mem hs), ?_, ?_, ?_⟩
  · intro hd
    rw [hpk, hpts, if_pos hd, av_q2d, mul_div_assoc]
  · intro hd hp
    rw [hpk, hpts, if_neg (not_not.mpr hd), if_pos hp, av_q2d, mul_div_assoc]
  · intro hd hp
    rw [hpk, hpts, if_neg (not_not.mpr hd), if_neg (not_not.mpr hp), zero_mul]

/-- C10 on the opened demo session: a video packet with dts 100 and time base
1/25 gets the timestamp 100*1/25. -/
theorem readFrame_timestamp_witness :
    ∃ stream, (0 : Int) ≤ (mkPacket 1 50 100).stream_index ∧
      (mkFormat demoStreams).streams[(mkPacket 1 50 100).stream_index.toNat]? = some stream ∧
      stream.time_base.den ≠ 0 ∧
      ((mkPacket 1 50 100).dts ≠ AV_NOPTS_VALUE →
        afterVideoRead.pkt.pts =
          ((mkPacket 1 50 100).dts : ℚ) * stream.time_base.num / stream.time_base.den) ∧
      ((mkPacket 1 50 100).dts = AV_NOPTS_VALUE → (mkPacket 1 50 100).pts ≠ AV_NOPTS_VALUE →
        afterVideoRead.pkt.pts =
          ((mkPacket 1 50 100).pts : ℚ) * stream.time_base.num / stream.time_base.den) ∧
      ((mkPacket 1 50 100).dts = AV_NOPTS_VALUE → (mkPacket 1 50 100).pts = AV_NOPTS_VALUE →
        afterVideoRead.pkt.pts = 0) :=
  readFrame_timestamp openSession 10 0 (mkPacket 1 50 100) (mkFormat demoStreams)
    afterVideoRead [Signal.started] rfl (by decide)
    (by simp [readFrame, openSession, clockedDemuxer, newDemuxer, mkPacket, startedStep,
      noFrameYet, notSelected, videoStream, audioStream, fillPacket, mkFormat, demoStreams,
      mkStream, mkCodec, av_q2d, AV_NOPTS_VALUE, QElapsedTimer.start, QElapsedTimer.invalidate,
      autoClock, afterVideoRead]; norm_num)

/-! ## Lemmas on seek -/

/-- A request that passes the rate limiter arms the debounce timer and changes
nothing else. -/
theorem seekLimiter_some (s s1 : AVDemuxer) (now : Int) (h : seekLimiter s now = some s1) :
    s1 = armed s now := by
  unfold seekLimiter at h
  split_ifs at h <;> simp only [Option.some.injEq] at h <;> subst h <;> rfl

/-- The rate limiter ignores a request exactly when the debounce timer is valid
and at most `kSeekInterval` milliseconds have elapsed. -/
theorem seekLimiter_none_iff (s : AVDemuxer) (now : Int) :
    seekLimiter s now = none ↔
      ∃ t0, s.seek_timer.t0 = some t0 ∧ now - t0 ≤ kSeekInterval := by
  unfold seekLimiter QElapsedTimer.isValid QElapsedTimer.hasExpired QElapsedTimer.elapsed
  cases h : s.seek_timer.t0 with
  | none => simp
  | some t0 => simp

/-- A non-negative fraction below one whose truncated product with the duration
is below the duration has a non-negative truncated product. -/
theorem truncToInt_nonneg_of_lt (q : ℚ) (D : Int) (h0 : 0 ≤ q) (h1 : q < 1)
    (ht : truncToInt (q * (D : ℚ)) < D) : 0 ≤ truncToInt (q * (D : ℚ)) := by
  unfold truncToInt at ht ⊢
  by_cases hx : 0 ≤ q * (D : ℚ)
  · rw [if_pos hx]
    exact Int.floor_nonneg.mpr hx
  · exfalso
    rw [if_neg hx] at ht
    have hx2 : q * (D : ℚ) < 0 := not_le.mp hx
    have hD : (D : ℚ) < 0 := by
      by_contra hcon
      exact absurd (mul_nonneg h0 (not_lt.mp hcon)) hx
    have h2 : (D : ℚ) ≤ q * (D : ℚ) := by nlinarith
    have h3 : (D : ℚ) ≤ ((⌈q * (D : ℚ)⌉ : Int) : ℚ) := le_trans h2 (Int.le_ceil _)
    have h4 : D ≤ ⌈q * (D : ℚ)⌉ := by exact_mod_cast h3
    omega

/-- The replay part keeps everything but the started flag and the video codec
context, and keeps the presence of the video codec context. -/
theorem seekReplay_frame (s : AVDemuxer) (q : ℚ) :
    ∃ st vc, (seekReplay s q).1 = { s with started_ := st, v_codec_context := vc } ∧
      (vc.isSome = s.v_codec_context.isSome) := by
  unfold seekReplay
  by_cases hq : q = 0
  · simp only [hq, if_true]
    cases hv : s.v_codec_context with
    | none => exact ⟨false, none, rfl, rfl⟩
    | some v => exact ⟨false, some { v with frame_number := 0 }, rfl, rfl⟩
  · simp only [hq, if_false]
    exact ⟨s.started_, s.v_codec_context, rfl, rfl⟩

/-- The clock part changes the clock only. -/
theorem seekClock_frame (s : AVDemuxer) (t : Int) :
    ∃ mc, seekClock s t = { s with master_clock := mc } := by
  unfold seekClock
  cases h : s.master_clock with
  | none => exact ⟨none, by cases s; simp_all⟩
  | some clk => exact ⟨_, rfl⟩

/-- A call of `seek` changes at most the debounce timer, the started flag, the
video codec context and the clock, and keeps the presence of the video codec
context. -/
theorem seek_frame (f : Int → Int → Int) (s : AVDemuxer) (now : Int) (q : ℚ) :
    ∃ tm st vc mc, (seek f s now q).state =
        { s with seek_timer := tm, started_ := st, v_codec_context := vc,
                 master_clock := mc } ∧
      vc.isSome = s.v_codec_context.isSome := by
  unfold seek
  split_ifs with h0
  · exact ⟨s.seek_timer, s.started_, s.v_codec_context, s.master_clock, rfl, rfl⟩
  · cases hl : seekLimiter s now with
    | none => exact ⟨s.seek_timer, s.started_, s.v_codec_context, s.master_clock, rfl, rfl⟩
    | some s1 =>
      have hs1 := seekLimiter_some s s1 now hl
      subst hs1
      simp only
      split_ifs with h1
      · exact ⟨_, s.started_, s.v_codec_context, s.master_clock, rfl, rfl⟩
      · cases hfc : (armed s now).format_context with
        | none => exact ⟨_, s.started_, s.v_codec_context, s.master_clock, rfl, rfl⟩
        | some fc =>
          simp only
          split_ifs with h2 h3
          · exact ⟨_, s.started_, s.v_codec_context, s.master_clock, rfl, rfl⟩
          · exact ⟨_, s.started_, s.v_codec_context, s.master_clock, rfl, rfl⟩
          · obtain ⟨st, vc, hr, hvc⟩ := seekReplay_frame (armed s now) (max 0 q)
            rcases hrp : seekReplay (armed s now) (max 0 q) with ⟨s2, e⟩
            rw [hrp] at hr
            simp only at hr
            subst hr
            cases e with
            | some e => exact ⟨_, st, vc, s.master_clock, rfl, hvc⟩
            | none =>
              obtain ⟨mc, hm⟩ := seekClock_frame
                { armed s now with started_ := st, v_codec_context := vc }
                (truncToInt (max 0 q * (fc.duration : ℚ)))
              simp only
              rw [hm]
              exact ⟨_, st, vc, mc, rfl, hvc⟩

/-- The first test of `seek` fails exactly on the ready sessions. -/
theorem ready_iff (s : AVDemuxer) :
    ready s ↔ ¬ (((s.a_codec_context.isNone && s.v_codec_context.isNone)
      || s.format_context.isNone) = true) := by
  unfold ready
  cases s.a_codec_context <;> cases s.v_codec_context <;> cases s.format_context <;> simp

/-- On a session that is not ready `seek` does nothing. -/
theorem seek_not_ready (f : Int → Int → Int) (s : AVDemuxer) (now : Int) (q : ℚ)
    (h : ¬ ready s) : seek f s now q = { state := s, call := none, fault := none } := by
  unfold seek
  rw [ready_iff, not_not] at h
  rw [if_pos h]

/-- A request ignored by the rate limiter does nothing. -/
theorem seek_limited (f : Int → Int → Int) (s : AVDemuxer) (now : Int) (q : ℚ)
    (hl : seekLimiter s now = none) :
    seek f s now q = { state := s, call := none, fault := none } := by
  unfold seek
  split_ifs
  · rfl
  · rw [hl]

/-- The run of `seek` on a ready session with container `fc` when the request
passes the rate limiter. -/
theorem seek_ready_eq (f : Int → Int → Int) (s : AVDemuxer) (now : Int) (q : ℚ)
    (fc : AVFormatContext) (hr : ready s) (hfc : s.format_context = some fc)
    (hl : seekLimiter s now ≠ none) :
    seek f s now q =
      if 1 ≤ max 0 q then { state := armed s now, call := none, fault := none }
      else if fc.duration ≤ truncToInt (max 0 q * (fc.duration : ℚ)) then
        { state := armed s now, call := none, fault := none }
      else if f (truncToInt (max 0 q * (fc.duration : ℚ)))
          (seekFlag s (truncToInt (max 0 q * (fc.duration : ℚ)))) < 0 then
        { state := armed s now,
          call := some { timestamp := truncToInt (max 0 q * (fc.duration : ℚ)),
                         flags := seekFlag s (truncToInt (max 0 q * (fc.duration : ℚ))) },
          fault := none }
      else
        match seekReplay (armed s now) (max 0 q) with
        | (s2, some e) =>
          { state := s2,
            call := some { timestamp := truncToInt (max 0 q * (fc.duration : ℚ)),
                           flags := seekFlag s (truncToInt (max 0 q * (fc.duration : ℚ))) },
            fault := some e }
        | (s2, none) =>
          { state := seekClock s2 (truncToInt (max 0 q * (fc.duration : ℚ))),
            call := some { timestamp := truncToInt (max 0 q * (fc.duration : ℚ)),
                           flags := seekFlag s (truncToInt (max 0 q * (fc.duration : ℚ))) },
            fault := none } := by
  unfold seek
  rw [if_neg ((ready_iff s).mp hr)]
  cases hl2 : seekLimiter s now with
  | none => exact absurd hl2 hl
  | some s1 =>
    have hs1 := seekLimiter_some s s1 now hl2
    subst hs1
    have hfc2 : (armed s now).format_context = some fc := hfc
    simp only [hfc2, ge_iff_le]
    rfl

/-- After a call of `seek` on a ready session that passes the rate limiter the
debounce timer holds the time of the call. -/
theorem seek_timer_after (f : Int → Int → Int) (s : AVDemuxer) (now : Int) (q : ℚ)
    (hr : ready s) (hl : seekLimiter s now ≠ none) :
    (seek f s now q).state.seek_timer = { t0 := some now } := by
  obtain ⟨fc, hfc⟩ := Option.isSome_iff_exists.mp hr.2
  rw [seek_ready_eq f s now q fc hr hfc hl]
  split_ifs
  · rfl
  · rfl
  · rfl
  · obtain ⟨st, vc, hrp, _⟩ := seekReplay_frame (armed s now) (max 0 q)
    rcases hrep : seekReplay (armed s now) (max 0 q) with ⟨s2, e⟩
    rw [hrep] at hrp
    simp only at hrp
    subst hrp
    cases e with
    | some e => rfl
    | none =>
      obtain ⟨mc, hm⟩ := seekClock_frame
        { armed s now with started_ := st, v_codec_context := vc }
        (truncToInt (max 0 q * (fc.duration : ℚ)))
      simp only
      rw [hm]
      rfl

/-- The library seek that `seek` issues, if any, carries the truncated target
and the flag computed by `seekFlag`. -/
theorem seek_call_eq (f : Int → Int → Int) (s : AVDemuxer) (now : Int) (q : ℚ)
    (c : SeekCall) (h : (seek f s now q).call = some c) :
    ∃ fc, s.format_context = some fc ∧
      c = { timestamp := truncToInt (max 0 q * (fc.duration : ℚ)),
            flags := seekFlag s (truncToInt (max 0 q * (fc.duration : ℚ))) } := by
  by_cases hr : ready s
  · obtain ⟨fc, hfc⟩ := Option.isSome_iff_exists.mp hr.2
    by_cases hl : seekLimiter s now = none
    · rw [seek_limited f s now q hl] at h
      cases h
    · rw [seek_ready_eq f s now q fc hr hfc hl] at h
      by_cases h1 : 1 ≤ max 0 q
      · rw [if_pos h1] at h
        simp at h
      rw [if_neg h1] at h
      by_cases h2 : fc.duration ≤ truncToInt (max 0 q * (fc.duration : ℚ))
      · rw [if_pos h2] at h
        simp at h
      rw [if_neg h2] at h
      by_cases h3 : f (truncToInt (max 0 q * (fc.duration : ℚ)))
          (seekFlag s (truncToInt (max 0 q * (fc.duration : ℚ)))) < 0
      · rw [if_pos h3] at h
        simp only [Option.some.injEq] at h
        exact ⟨fc, hfc, h.symm⟩
      · rw [if_neg h3] at h
        rcases hrep : seekReplay (armed s now) (max 0 q) with ⟨s2, e⟩
        rw [hrep] at h
        cases e with
        | some e =>
          simp only [Option.some.injEq] at h
          exact ⟨fc, hfc, h.symm⟩
        | none =>
          simp only [Option.some.injEq] at h
          exact ⟨fc, hfc, h.symm⟩
  · rw [seek_not_ready f s now q hr] at h
    cases h

/-! ## The claims on seek -/

/-- C11: whenever `seek` calls the library's seek, the target is
`trunc(max(0, q) * D)` for the container duration `D` and lies in `[0, D)`; in
every other case no library seek is issued. -/
theorem seek_target_in_range (f : Int → Int → Int) (s : AVDemuxer) (now : Int) (q : ℚ)
    (c : SeekCall) (h : (seek f s now q).call = some c) :
    ∃ fc, s.format_context = some fc ∧
      c.timestamp = truncToInt (max 0 q * (fc.duration : ℚ)) ∧
      0 ≤ c.timestamp ∧ c.timestamp < fc.duration := by
  by_cases hr : ready s
  · obtain ⟨fc, hfc⟩ := Option.isSome_iff_exists.mp hr.2
    by_cases hl : seekLimiter s now = none
    · rw [seek_limited f s now q hl] at h
      cases h
    · rw [seek_ready_eq f s now q fc hr hfc hl] at h
      have key : ¬ (1 ≤ max 0 q) →
          ¬ (fc.duration ≤ truncToInt (max 0 q * (fc.duration : ℚ))) →
          c.timestamp = truncToInt (max 0 q * (fc.duration : ℚ)) →
          ∃ fc, s.format_context = some fc ∧
            c.timestamp = truncToInt (max 0 q * (fc.duration : ℚ)) ∧
            0 ≤ c.timestamp ∧ c.timestamp < fc.duration := by
        intro h1 h2 hc
        refine ⟨fc, hfc, hc, ?_, ?_⟩
        · rw [hc]
          exact truncToInt_nonneg_of_lt _ _ (le_max_left 0 q) (not_le.mp h1) (not_le.mp h2)
        · rw [hc]; exact not_le.mp h2
      by_cases h1 : 1 ≤ max 0 q
      · rw [if_pos h1] at h
        simp at h
      rw [if_neg h1] at h
      by_cases h2 : fc.duration ≤ truncToInt (max 0 q * (fc.duration : ℚ))
      · rw [if_pos h2] at h
        simp at h
      rw [if_neg h2] at h
      by_cases h3 : f (truncToInt (max 0 q * (fc.duration : ℚ)))
          (seekFlag s (truncToInt (max 0 q * (fc.duration : ℚ)))) < 0
      · rw [if_pos h3] at h
        simp only [Option.some.injEq] at h
        exact key h1 h2 (by rw [← h])
      · rw [if_neg h3] at h
        rcases hrep : seekReplay (armed s now) (max 0 q) with ⟨s2, e⟩
        rw [hrep] at h
        cases e with
        | some e =>
          simp only [Option.some.injEq] at h
          exact key h1 h2 (by rw [← h])
        | none =>
          simp only [Option.some.injEq] at h
          exact key h1 h2 (by rw [← h])
  · rw [seek_not_ready f s now q hr] at h
    cases h

/-- C11 on the opened demo session (duration 4000000): a seek to one half
targets 2000000. -/
theorem seek_target_in_range_witness :
    ∃ fc, openSession.format_context = some fc ∧
      (2000000 : Int) = truncToInt (max 0 (1 / 2) * (fc.duration : ℚ)) ∧
      (0 : Int) ≤ 2000000 ∧ (2000000 : Int) < fc.duration :=
  seek_target_in_range seekOk openSession 1000 (1 / 2) { timestamp := 2000000, flags := 1 }
    (by simp [seek, openSession, clockedDemuxer, newDemuxer, seekLimiter,
          QElapsedTimer.isValid, mkFormat, truncToInt, seekFlag, seekOk, AV_TIME_BASE,
          AVSEEK_FLAG_BACKWARD, seekReplay]
        norm_num)

/-- C12 fails as stated: with the debounce timer started at time 0, a seek at
time 100 is ignored and leaves the session as it was, and the next seek, 100 ms
later, is carried out. -/
theorem seek_second_not_ignored :
    seek seekOk timedSession 100 (1 / 2) =
      { state := timedSession, call := none, fault := none } ∧
    (200 : Int) - 100 < kSeekInterval ∧
    (seek seekOk (seek seekOk timedSession 100 (1 / 2)).state 200 (1 / 2)).call =
      some { timestamp := 2000000, flags := 1 } ∧
    (seek seekOk (seek seekOk timedSession 100 (1 / 2)).state 200 (1 / 2)).state ≠
      (seek seekOk timedSession 100 (1 / 2)).state := by
  have h1 : seek seekOk timedSession 100 (1 / 2) =
      { state := timedSession, call := none, fault := none } :=
    seek_limited seekOk timedSession 100 (1 / 2)
      ((seekLimiter_none_iff timedSession 100).mpr ⟨0, rfl, by decide⟩)
  refine ⟨h1, by decide, ?_, ?_⟩
  · rw [h1]
    simp [seek, timedSession, openSession, clockedDemuxer, newDemuxer, seekLimiter,
      QElapsedTimer.isValid, QElapsedTimer.hasExpired, QElapsedTimer.elapsed, kSeekInterval,
      mkFormat, truncToInt, seekFlag, seekOk, AV_TIME_BASE, AVSEEK_FLAG_BACKWARD, seekReplay]
    norm_num
  · rw [h1]
    intro hcon
    have h2 := seek_timer_after seekOk timedSession 200 (1 / 2)
      ⟨Or.inl rfl, rfl⟩
      (by
        intro hn
        obtain ⟨t0, ht0, hle⟩ := (seekLimiter_none_iff timedSession 200).mp hn
        have : t0 = 0 := by
          have h3 : timedSession.seek_timer.t0 = some 0 := rfl
          rw [h3] at ht0
          exact (Option.some.inj ht0).symm
        subst this
        exact absurd hle (by decide))
    simp only at hcon
    rw [hcon] at h2
    exact absurd h2 (by decide)

/-- C12 as amended: on a ready session, when a call of `seek` passes the rate
limiter (so that it starts or restarts the debounce timer), a second call made
less than `kSeekInterval` milliseconds later issues no library seek and leaves
the session, the clock included, exactly as the first call left it. -/
theorem seek_debounced (f1 f2 : Int → Int → Int) (s : AVDemuxer) (now1 now2 : Int)
    (q1 q2 : ℚ) (hr : ready s) (hl : seekLimiter s now1 ≠ none)
    (hmono : now1 ≤ now2) (hclose : now2 - now1 < kSeekInterval) :
    seek f2 (seek f1 s now1 q1).state now2 q2 =
      { state := (seek f1 s now1 q1).state, call := none, fault := none } := by
  have ht := seek_timer_after f1 s now1 q1 hr hl
  have _ := hmono
  apply seek_limited
  rw [seekLimiter_none_iff]
  exact ⟨now1, by rw [ht], le_of_lt hclose⟩

/-- C12 as amended, on the opened demo session: seeks at times 1000 and 1100. -/
theorem seek_debounced_witness :
    seek seekOk (seek seekOk openSession 1000 (1 / 2)).state 1100 (1 / 4) =
      { state := (seek seekOk openSession 1000 (1 / 2)).state, call := none, fault := none } :=
  seek_debounced seekOk seekOk openSession 1000 1100 (1 / 2) (1 / 4)
    ⟨Or.inl rfl, rfl⟩ (by simp [seekLimiter, openSession, clockedDemuxer, newDemuxer,
      QElapsedTimer.isValid]) (by decide) (by decide)

/-- C13 (the code on an audio-only session): a `seek(0)` that passes the rate
limiter and whose library seek succeeds clears the started flag and then writes
`v_codec_context->frame_number` through the null video context pointer. -/
theorem seek_zero_audio_only (f : Int → Int → Int) (s : AVDemuxer) (now : Int)
    (fc : AVFormatContext) (a : AVCodecContext)
    (hfc : s.format_context = some fc) (ha : s.a_codec_context = some a)
    (hv : s.v_codec_context = none) (hD : 0 < fc.duration)
    (hl : seekLimiter s now ≠ none) (hret : ∀ t fl, 0 ≤ f t fl) :
    (seek f s now 0).call = some { timestamp := 0, flags := seekFlag s 0 } ∧
    (seek f s now 0).fault = some Fault.nullDeref ∧
    (seek f s now 0).state.started_ = false := by
  have hr : ready s := ⟨Or.inl (by rw [ha]; rfl), by rw [hfc]; rfl⟩
  rw [seek_ready_eq f s now 0 fc hr hfc hl]
  have hq : max (0 : ℚ) 0 = 0 := max_self 0
  have ht : truncToInt (max 0 0 * (fc.duration : ℚ)) = 0 := by
    rw [hq, zero_mul]
    simp [truncToInt]
  rw [ht, hq]
  rw [if_neg (by norm_num), if_neg (not_le.mpr hD), if_neg (not_lt.mpr (hret _ _))]
  have hrep : seekReplay (armed s now) 0 =
      ({ armed s now with started_ := false }, some Fault.nullDeref) := by
    unfold seekReplay
    have hv2 : (armed s now).v_codec_context = none := hv
    simp [hv2]
  rw [hrep]
  exact ⟨rfl, rfl, rfl⟩

/-- C13 on the audio-only demo session. -/
theorem seek_zero_audio_only_witness :
    (seek seekOk audioOnlySession 1000 0).call =
      some { timestamp := 0, flags := seekFlag audioOnlySession 0 } ∧
    (seek seekOk audioOnlySession 1000 0).fault = some Fault.nullDeref ∧
    (seek seekOk audioOnlySession 1000 0).state.started_ = false :=
  seek_zero_audio_only seekOk audioOnlySession 1000
    (mkFormat [mkStream AVMediaType.audio 3]) (mkCodec AVMediaType.audio 3)
    rfl rfl rfl (by decide)
    (by simp [seekLimiter, audioOnlySession, clockedDemuxer, newDemuxer,
      QElapsedTimer.isValid])
    (fun _ _ => le_refl 0)

/-- C14 fails as stated: `seek(1)` on the opened demo session restarts the
debounce timer, so that a valid seek one millisecond later is ignored although
it would have been carried out had the rejected call not happened. -/
theorem seek_rejected_arms_timer :
    openSession.seek_timer = { t0 := none } ∧
    (seek seekOk openSession 1000 1).state.seek_timer = { t0 := some 1000 } ∧
    (seek seekOk (seek seekOk openSession 1000 1).state 1001 (1 / 2)).call = none ∧
    (seek seekOk openSession 1001 (1 / 2)).call =
      some { timestamp := 2000000, flags := 1 } := by
  have hr : ready openSession := ⟨Or.inl rfl, rfl⟩
  have hl : seekLimiter openSession 1000 ≠ none := by
    simp [seekLimiter, openSession, clockedDemuxer, newDemuxer, QElapsedTimer.isValid]
  have ht := seek_timer_after seekOk openSession 1000 1 hr hl
  refine ⟨rfl, ht, ?_, ?_⟩
  · rw [seek_limited seekOk _ 1001 (1 / 2)
      ((seekLimiter_none_iff _ 1001).mpr ⟨1000, by rw [ht], by decide⟩)]
  · simp [seek, openSession, clockedDemuxer, newDemuxer, seekLimiter,
      QElapsedTimer.isValid, mkFormat, truncToInt, seekFlag, seekOk, AV_TIME_BASE,
      AVSEEK_FLAG_BACKWARD, seekReplay]
    norm_num

/-- C14 as amended: on a ready session `seek(q)` with `q ≥ 1` issues no library
seek and raises no fault; when the request is ignored by the rate limiter the
session is unchanged, and otherwise it is unchanged except for the debounce timer,
which holds the time of the call. -/
theorem seek_fraction_rejected (f : Int → Int → Int) (s : AVDemuxer) (now : Int) (q : ℚ)
    (hr : ready s) (hq : 1 ≤ q) :
    (seek f s now q).call = none ∧ (seek f s now q).fault = none ∧
    ((seekLimiter s now = none ∧ (seek f s now q).state = s) ∨
     (seekLimiter s now ≠ none ∧ (seek f s now q).state = armed s now)) := by
  by_cases hl : seekLimiter s now = none
  · rw [seek_limited f s now q hl]
    exact ⟨rfl, rfl, Or.inl ⟨hl, rfl⟩⟩
  · obtain ⟨fc, hfc⟩ := Option.isSome_iff_exists.mp hr.2
    rw [seek_ready_eq f s now q fc hr hfc hl, if_pos (le_trans hq (le_max_right 0 q))]
    exact ⟨rfl, rfl, Or.inr ⟨hl, rfl⟩⟩

/-- C14 as amended, on the opened demo session and the fraction 1. -/
theorem seek_fraction_rejected_witness :
    (seek seekOk openSession 1000 1).call = none ∧
    (seek seekOk openSession 1000 1).fault = none ∧
    ((seekLimiter openSession 1000 = none ∧ (seek seekOk openSession 1000 1).state = openSession) ∨
     (seekLimiter openSession 1000 ≠ none ∧
      (seek seekOk openSession 1000 1).state = armed openSession 1000)) :=
  seek_fraction_rejected seekOk openSession 1000 1 ⟨Or.inl rfl, rfl⟩ (le_refl 1)

/-- C16 (the code at every library seek): the flag `AVSEEK_FLAG_BACKWARD` is
passed exactly when the target is greater than the last packet's timestamp in
microseconds; when the target is at most that timestamp the flag passed is 0. -/
theorem seek_flag_inverted (f : Int → Int → Int) (s : AVDemuxer) (now : Int) (q : ℚ)
    (c : SeekCall) (h : (seek f s now q).call = some c) :
    (c.flags = AVSEEK_FLAG_BACKWARD ↔
      ¬ (c.timestamp ≤ truncToInt (s.pkt.pts * (AV_TIME_BASE : ℚ)))) ∧
    (c.timestamp ≤ truncToInt (s.pkt.pts * (AV_TIME_BASE : ℚ)) → c.flags = 0) := by
  obtain ⟨fc, _, hc⟩ := seek_call_eq f s now q c h
  subst hc
  simp only [seekFlag]
  by_cases hb : truncToInt (max 0 q * (fc.duration : ℚ)) ≤
      truncToInt (s.pkt.pts * (AV_TIME_BASE : ℚ))
  · simp [hb, AVSEEK_FLAG_BACKWARD]
  · simp [hb, AVSEEK_FLAG_BACKWARD]

/-- C16 on the demo session after a video packet at 4 s: a seek to one half
(target 2000000 ≤ 4000000) passes the flag 0. -/
theorem seek_flag_inverted_witness :
    (((0 : Int) = AVSEEK_FLAG_BACKWARD ↔
      ¬ ((2000000 : Int) ≤ truncToInt (afterVideoRead.pkt.pts * (AV_TIME_BASE : ℚ)))) ∧
    ((2000000 : Int) ≤ truncToInt (afterVideoRead.pkt.pts * (AV_TIME_BASE : ℚ)) →
      (0 : Int) = 0)) :=
  seek_flag_inverted seekOk afterVideoRead 1000 (1 / 2) { timestamp := 2000000, flags := 0 }
    (by simp [seek, afterVideoRead, openSession, clockedDemuxer, newDemuxer, seekLimiter,
          QElapsedTimer.isValid, mkFormat, truncToInt, seekFlag, seekOk, AV_TIME_BASE,
          AVSEEK_FLAG_BACKWARD, seekReplay]
        norm_num)

/-! ## Further lemmas on readFrame and the lookups -/

/-- The started check in closed form. -/
theorem startedStep_eq (s : AVDemuxer) :
    startedStep s = ({ s with started_ := (startedStep s).1.started_ }, (startedStep s).2) := by
  obtain ⟨st, h, _⟩ := startedStep_frame s
  have h2 : (startedStep s).1.started_ = st := by rw [h]
  rw [h2, ← h]

/-- The started check raises `started` exactly when the started flag is clear and
the video context is present with no frame decoded, or the audio context is
present with no frame decoded. -/
theorem startedStep_spec (s : AVDemuxer) :
    (s.started_ = false ∧
      ((∃ v, s.v_codec_context = some v ∧ v.frame_number = 0) ∨
       (∃ a, s.a_codec_context = some a ∧ a.frame_number = 0)) →
      (startedStep s).2 = [Signal.started] ∧ (startedStep s).1.started_ = true) ∧
    (¬ (s.started_ = false ∧
      ((∃ v, s.v_codec_context = some v ∧ v.frame_number = 0) ∨
       (∃ a, s.a_codec_context = some a ∧ a.frame_number = 0))) →
      (startedStep s).2 = [] ∧ (startedStep s).1.started_ = s.started_) := by
  have hn : ∀ c : Option AVCodecContext,
      noFrameYet c = true ↔ ∃ v, c = some v ∧ v.frame_number = 0 := by
    intro c
    cases c with
    | none => simp [noFrameYet]
    | some v => simp [noFrameYet]
  unfold startedStep
  rw [← hn, ← hn]
  cases hs : s.started_ <;> cases hv : noFrameYet s.v_codec_context <;>
    cases ha : noFrameYet s.a_codec_context <;> simp [hs]

/-- With a container, the selection test in closed form. -/
theorem notSelected_eq (s : AVDemuxer) (fc : AVFormatContext)
    (h : s.format_context = some fc) :
    notSelected s =
      .ok (decide (s.stream_idx ≠ videoIndex s fc ∧ s.stream_idx ≠ audioIndex s fc),
        { s with video_stream := videoIndex s fc,
                 audio_stream := if s.stream_idx ≠ videoIndex s fc then audioIndex s fc
                                 else s.audio_stream }) := by
  unfold notSelected
  rw [videoStream_ok s fc h]
  by_cases hv : s.stream_idx ≠ videoIndex s fc
  · have h2 := audioStream_ok { s with video_stream := videoIndex s fc } fc h
    simp only [audioIndex] at h2
    simp [hv, h2, audioIndex]
  · simp [hv]

/-- The run of `readFrame` after a successful read, in closed form. -/
theorem readFrame_ok_eq (s : AVDemuxer) (now : Int) (p : AVPacket) (fc : AVFormatContext)
    (hfc : s.format_context = some fc) :
    readFrame s now 0 p =
      if p.stream_index ≠ videoIndex s fc ∧ p.stream_index ≠ audioIndex s fc then
        .ok (false, selectedState s p fc, (startedStep (afterRead s p)).2)
      else
        match fillPacket fc p.stream_index p s.pkt with
        | .error e => .error e
        | .ok pkt =>
          .ok (true, { selectedState s p fc with pkt := pkt },
            (startedStep (afterRead s p)).2) := by
  have ha := notSelected_eq
    { afterRead s p with started_ := (startedStep (afterRead s p)).1.started_ } fc
    (by simpa [afterRead] using hfc)
  have hS := startedStep_eq (afterRead s p)
  unfold readFrame
  simp only [QElapsedTimer.invalidate, ne_eq, not_true_eq_false, if_false]
  split
  · rename_i h0
    rw [hfc] at h0
    cases h0
  rename_i fc2 h0
  have hfc2 : fc = fc2 := by
    rw [hfc] at h0
    exact Option.some.inj h0
  subst hfc2
  change ((match startedStep (afterRead s p) with
    | (s, sig) =>
      match notSelected s with
      | Except.error e => Except.error e
      | Except.ok (true, s) => Except.ok (false, s, sig)
      | Except.ok (false, s) =>
        match fillPacket fc s.stream_idx p s.pkt with
        | Except.error e => Except.error e
        | Except.ok pkt => Except.ok (true, { s with pkt := pkt }, sig)) :
      Except Fault (Bool × AVDemuxer × List Signal)) = _
  rw [hS]
  simp only [ha]
  by_cases hsel : p.stream_index ≠ videoIndex s fc ∧ p.stream_index ≠ audioIndex s fc
  · have : decide ((afterRead s p).stream_idx ≠ videoIndex
        { afterRead s p with started_ := (startedStep (afterRead s p)).1.started_ } fc ∧
        (afterRead s p).stream_idx ≠ audioIndex
          { afterRead s p with started_ := (startedStep (afterRead s p)).1.started_ } fc)
        = true := by
      simpa [afterRead, videoIndex, audioIndex] using hsel
    simp only [this, if_pos hsel]
    rfl
  · have : decide ((afterRead s p).stream_idx ≠ videoIndex
        { afterRead s p with started_ := (startedStep (afterRead s p)).1.started_ } fc ∧
        (afterRead s p).stream_idx ≠ audioIndex
          { afterRead s p with started_ := (startedStep (afterRead s p)).1.started_ } fc)
        = false := by
      simpa [afterRead, videoIndex, audioIndex] using hsel
    simp only [this, if_neg hsel]
    rfl

/-- What a returning `readFrame` leaves after a successful read: the signals and
the started flag of the started check, the cached video and audio slots, and
everything else but the packet slot, the current stream index and the interrupt
timer as before. -/
theorem readFrame_ok_state (s : AVDemuxer) (now : Int) (p : AVPacket) (fc : AVFormatContext)
    (b : Bool) (s2 : AVDemuxer) (sig : List Signal)
    (hfc : s.format_context = some fc)
    (h : readFrame s now 0 p = .ok (b, s2, sig)) :
    sig = (startedStep (afterRead s p)).2 ∧
    ∃ pkt, s2 = { selectedState s p fc with pkt := pkt } := by
  rw [readFrame_ok_eq s now p fc hfc] at h
  split_ifs at h
  · simp only [Except.ok.injEq, Prod.mk.injEq] at h
    obtain ⟨_, rfl, rfl⟩ := h
    exact ⟨rfl, (selectedState s p fc).pkt, rfl⟩
  · cases hfp : fillPacket fc p.stream_index p s.pkt with
    | error e => simp [hfp] at h
    | ok pkt =>
      simp only [hfp, Except.ok.injEq, Prod.mk.injEq] at h
      obtain ⟨_, rfl, rfl⟩ := h
      exact ⟨rfl, pkt, rfl⟩

/-- A non-negative slot that meets the specification names a stream of its type. -/
theorem FirstOfType.stream_type {t : AVMediaType} {l : List AVStream} {k : Int}
    (h : FirstOfType t l k) (hk : 0 ≤ k) (st : AVStream) (hst : l[k.toNat]? = some st) :
    st.codec.codec_type = t := by
  rcases h with ⟨h1, _⟩ | ⟨n, st1, h1, h2, h3, _⟩
  · omega
  · subst h1
    rw [Int.toNat_ofNat, h2] at hst
    rw [← Option.some.inj hst]
    exact h3

/-- The index returned by `videoStream()` meets the specification of the video
slot when the cached slot is unresolved or meets it. -/
theorem videoIndex_first (s : AVDemuxer) (fc : AVFormatContext)
    (h : s.video_stream = -2 ∨ FirstOfType AVMediaType.video fc.streams s.video_stream) :
    FirstOfType AVMediaType.video fc.streams (videoIndex s fc) := by
  unfold videoIndex
  by_cases hv : s.video_stream ≠ -2
  · rw [if_pos hv]
    rcases h with h | h
    · exact absurd h hv
    · exact h
  · rw [if_neg hv]
    exact scanStream_first _ _

/-- The index returned by `audioStream()` meets the specification of the audio
slot when the cached slot is unresolved or meets it. -/
theorem audioIndex_first (s : AVDemuxer) (fc : AVFormatContext)
    (h : s.audio_stream = -2 ∨ FirstOfType AVMediaType.audio fc.streams s.audio_stream) :
    FirstOfType AVMediaType.audio fc.streams (audioIndex s fc) := by
  unfold audioIndex
  by_cases hv : s.audio_stream ≠ -2
  · rw [if_pos hv]
    rcases h with h | h
    · exact absurd h hv
    · exact h
  · rw [if_neg hv]
    exact scanStream_first _ _

/-- With a container, `subtitleStream()` on an unresolved slot returns and caches
the scan result. -/
theorem subtitleStream_scan (s : AVDemuxer) (fc : AVFormatContext)
    (h : s.format_context = some fc) (hs : s.subtitle_stream = -2) :
    subtitleStream s =
      .ok (scanStream AVMediaType.subtitle (-1) fc.streams 0,
        { s with subtitle_stream := scanStream AVMediaType.subtitle (-1) fc.streams 0 }) := by
  unfold subtitleStream
  rw [if_neg (not_not.mpr hs), h]

/-- A lookup on a resolved slot returns the cached value and changes nothing. -/
theorem lookups_cached (s : AVDemuxer) :
    (s.audio_stream ≠ -2 → audioStream s = .ok (s.audio_stream, s)) ∧
    (s.video_stream ≠ -2 → videoStream s = .ok (s.video_stream, s)) ∧
    (s.subtitle_stream ≠ -2 → subtitleStream s = .ok (s.subtitle_stream, s)) := by
  refine ⟨fun h => ?_, fun h => ?_, fun h => ?_⟩
  · unfold audioStream; rw [if_pos h]
  · unfold videoStream; rw [if_pos h]
  · unfold subtitleStream; rw [if_pos h]

/-- A scan result is never the unresolved marker. -/
theorem scanStream_ne_unresolved (t : AVMediaType) (l : List AVStream) :
    scanStream t (-1) l 0 ≠ -2 := by
  rcases scanStream_first t l with ⟨h1, _⟩ | ⟨n, st, h1, _⟩ <;> omega

/-! ## The claims on the started check, the duration and the lookups -/

/-- C17 fails as stated: with a video context that has decoded 7 frames and an
audio context that has decoded none, a successful read on a session not yet
started raises `started`. -/
theorem readFrame_started_by_audio :
    midPlaySession.started_ = false ∧
    midPlaySession.v_codec_context
      = some { mkCodec AVMediaType.video 28 with frame_number := 7 } ∧
    ∃ s2, readFrame midPlaySession 10 0 (mkPacket 2 50 100) = .ok (false, s2, [Signal.started]) ∧
      s2.started_ = true := by
  refine ⟨rfl, rfl, ?_⟩
  have hfc : midPlaySession.format_context = some (mkFormat demoStreams) := rfl
  rw [readFrame_ok_eq midPlaySession 10 (mkPacket 2 50 100) (mkFormat demoStreams) hfc]
  have hsel : (mkPacket 2 50 100).stream_index ≠ videoIndex midPlaySession (mkFormat demoStreams) ∧
      (mkPacket 2 50 100).stream_index ≠ audioIndex midPlaySession (mkFormat demoStreams) := by
    constructor <;> decide
  rw [if_pos hsel]
  exact ⟨_, rfl, rfl⟩

/-- C17 as amended: after a successful native read on a session whose started
flag is clear, `readFrame` (whenever it returns) has marked the session started
and raised `started` exactly when the video context is present and reports zero
frames, or the audio context is present and reports zero frames (the audio
context is consulted whenever the video test fails, also when a video context
is present); when the started flag is already set, no `started` is raised. -/
theorem readFrame_started (s : AVDemuxer) (now : Int) (p : AVPacket)
    (b : Bool) (s2 : AVDemuxer) (sig : List Signal)
    (h : readFrame s now 0 p = .ok (b, s2, sig)) :
    (s.started_ = false →
      (((∃ v, s.v_codec_context = some v ∧ v.frame_number = 0) ∨
        (∃ a, s.a_codec_context = some a ∧ a.frame_number = 0)) →
        sig = [Signal.started] ∧ s2.started_ = true) ∧
      (¬ ((∃ v, s.v_codec_context = some v ∧ v.frame_number = 0) ∨
          (∃ a, s.a_codec_context = some a ∧ a.frame_number = 0)) →
        sig = [] ∧ s2.started_ = false)) ∧
    (s.started_ = true → sig = [] ∧ s2.started_ = true) := by
  cases hfc : s.format_context with
  | none => simp [readFrame, hfc] at h
  | some fc =>
    obtain ⟨hsig, pkt, hs2⟩ := readFrame_ok_state s now p fc b s2 sig hfc h
    have hst : s2.started_ = (startedStep (afterRead s p)).1.started_ := by
      rw [hs2]; rfl
    obtain ⟨hyes, hno⟩ := startedStep_spec (afterRead s p)
    rw [hsig, hst]
    refine ⟨fun h0 => ⟨fun hc => hyes ⟨h0, hc⟩, fun hc => ?_⟩, fun h1 => ?_⟩
    · have := hno (fun hcon => hc hcon.2)
      exact ⟨this.1, this.2.trans h0⟩
    · have := hno (fun hcon => by
        have h2 : s.started_ = false := hcon.1
        rw [h1] at h2
        cases h2)
      exact ⟨this.1, this.2.trans h1⟩

/-- C17 as amended, on the mid-play demo session and a packet of stream 2. -/
theorem readFrame_started_witness :
    (midPlaySession.started_ = false →
      (((∃ v, midPlaySession.v_codec_context = some v ∧ v.frame_number = 0) ∨
        (∃ a, midPlaySession.a_codec_context = some a ∧ a.frame_number = 0)) →
        [Signal.started] = [Signal.started] ∧
          (selectedState midPlaySession (mkPacket 2 50 100) (mkFormat demoStreams)).started_
            = true) ∧
      (¬ ((∃ v, midPlaySession.v_codec_context = some v ∧ v.frame_number = 0) ∨
          (∃ a, midPlaySession.a_codec_context = some a ∧ a.frame_number = 0)) →
        [Signal.started] = [] ∧
          (selectedState midPlaySession (mkPacket 2 50 100) (mkFormat demoStreams)).started_
            = false)) ∧
    (midPlaySession.started_ = true → [Signal.started] = [] ∧
      (selectedState midPlaySession (mkPacket 2 50 100) (mkFormat demoStreams)).started_
        = true) :=
  readFrame_started midPlaySession 10 (mkPacket 2 50 100) false
    (selectedState midPlaySession (mkPacket 2 50 100) (mkFormat demoStreams)) [Signal.started]
    (by
      rw [readFrame_ok_eq midPlaySession 10 (mkPacket 2 50 100) (mkFormat demoStreams) rfl]
      rw [if_pos (by constructor <;> decide)]
      rfl)

/-- C18: on a session whose video and audio slots are unresolved or resolved
against the container, and whose time bases are well formed, when `readFrame`
returns true the packet's stream index is non-negative and in bounds, the
owning stream is a video or an audio stream, and the duration in the packet slot
is the native duration times the time base when the native duration is positive
and 0 otherwise; with a non-negative time base it is never negative. -/
theorem readFrame_duration (s : AVDemuxer) (now ret : Int) (p : AVPacket)
    (fc : AVFormatContext) (s2 : AVDemuxer) (sig : List Signal)
    (hfc : s.format_context = some fc)
    (hv : s.video_stream = -2 ∨ FirstOfType AVMediaType.video fc.streams s.video_stream)
    (ha : s.audio_stream = -2 ∨ FirstOfType AVMediaType.audio fc.streams s.audio_stream)
    (hden : ∀ st ∈ fc.streams, st.time_base.den ≠ 0)
    (h : readFrame s now ret p = .ok (true, s2, sig)) :
    ∃ stream, 0 ≤ p.stream_index ∧ fc.streams[p.stream_index.toNat]? = some stream ∧
      stream.time_base.den ≠ 0 ∧
      (stream.codec.codec_type = AVMediaType.video ∨
        stream.codec.codec_type = AVMediaType.audio) ∧
      (0 < p.duration →
        s2.pkt.duration = (p.duration : ℚ) * stream.time_base.num / stream.time_base.den) ∧
      (p.duration ≤ 0 → s2.pkt.duration = 0) ∧
      (0 ≤ (stream.time_base.num : ℚ) / stream.time_base.den → 0 ≤ s2.pkt.duration) := by
  obtain ⟨fc2, pk2, hfc2, _, hsel, hfill, hpk⟩ := readFrame_true s now ret p s2 sig h
  rw [hfc] at hfc2
  obtain rfl := Option.some.inj hfc2
  obtain ⟨stream, hi, hs, _, _, hdur⟩ := fillPacket_ok fc p.stream_index p s.pkt pk2 hfill
  have htype : stream.codec.codec_type = AVMediaType.video ∨
      stream.codec.codec_type = AVMediaType.audio := by
    rcases hsel with hsel | hsel
    · left
      have hF := videoIndex_first s fc hv
      rw [← hsel] at hF
      exact hF.stream_type hi stream hs
    · right
      have hF := audioIndex_first s fc ha
      rw [← hsel] at hF
      exact hF.stream_type hi stream hs
  have hnsub : ¬ (stream.codec.codec_type = AVMediaType.subtitle ∧ p.key = true ∧
      p.convergence_duration ≠ AV_NOPTS_VALUE) := by
    rintro ⟨h1, _⟩
    rcases htype with h2 | h2 <;> rw [h1] at h2 <;> cases h2
  rw [if_neg hnsub] at hdur
  refine ⟨stream, hi, hs, hden stream (List.getElem?_mem hs), htype, ?_, ?_, ?_⟩
  · intro hp
    rw [hpk, hdur, if_pos hp, av_q2d, mul_div_assoc]
  · intro hp
    rw [hpk, hdur, if_neg (not_lt.mpr hp)]
  · intro hq
    rw [hpk, hdur]
    split_ifs with hp
    · have : (0 : ℚ) ≤ (p.duration : ℚ) := by exact_mod_cast le_of_lt hp
      exact mul_nonneg this hq
    · exact le_refl 0

/-- C18 on the opened demo session and a video packet of native duration 2. -/
theorem readFrame_duration_witness :
    ∃ stream, (0 : Int) ≤ (mkPacket 1 50 100).stream_index ∧
      (mkFormat demoStreams).streams[(mkPacket 1 50 100).stream_index.toNat]? = some stream ∧
      stream.time_base.den ≠ 0 ∧
      (stream.codec.codec_type = AVMediaType.video ∨
        stream.codec.codec_type = AVMediaType.audio) ∧
      (0 < (mkPacket 1 50 100).duration →
        afterVideoRead.pkt.duration =
          ((mkPacket 1 50 100).duration : ℚ) * stream.time_base.num / stream.time_base.den) ∧
      ((mkPacket 1 50 100).duration ≤ 0 → afterVideoRead.pkt.duration = 0) ∧
      (0 ≤ (stream.time_base.num : ℚ) / stream.time_base.den →
        0 ≤ afterVideoRead.pkt.duration) :=
  readFrame_duration openSession 10 0 (mkPacket 1 50 100) (mkFormat demoStreams)
    afterVideoRead [Signal.started] rfl
    (Or.inr (Or.inr ⟨1, mkStream AVMediaType.video 28, rfl, rfl, rfl, by
      intro m st2 hm hget
      have hm0 : m = 0 := by omega
      subst hm0
      simp [mkFormat, demoStreams] at hget
      subst hget
      simp [mkStream, mkCodec]⟩))
    (Or.inr (Or.inr ⟨0, mkStream AVMediaType.audio 3, rfl, rfl, rfl, by
      intro m st2 hm; omega⟩))
    (by decide)
    (by simp [readFrame, openSession, clockedDemuxer, newDemuxer, mkPacket, startedStep,
      noFrameYet, notSelected, videoStream, audioStream, fillPacket, mkFormat, demoStreams,
      mkStream, mkCodec, av_q2d, AV_NOPTS_VALUE, QElapsedTimer.start, QElapsedTimer.invalidate,
      autoClock, afterVideoRead]; norm_num)

/-- C19: on a session with a container and all three slots unresolved, each of
`audioStream()`, `videoStream()` and `subtitleStream()` returns the slot that
`findAVCodec()` computes for the same streams and returns the same value when
called again; running the three lookups one after the other leaves the three
slots as `findAVCodec()` leaves them. -/
theorem lookups_agree_with_findAVCodec (lib : LibAV) (s : AVDemuxer) (fc : AVFormatContext)
    (hfc : s.format_context = some fc)
    (hv : s.video_stream = -2) (ha : s.audio_stream = -2) (hs : s.subtitle_stream = -2) :
    ∃ (b : Bool) (sF sA sV sS sAV sAVS : AVDemuxer),
      findAVCodec lib s = .ok (b, sF) ∧
      audioStream s = .ok (sF.audio_stream, sA) ∧
      audioStream sA = .ok (sF.audio_stream, sA) ∧
      videoStream s = .ok (sF.video_stream, sV) ∧
      videoStream sV = .ok (sF.video_stream, sV) ∧
      subtitleStream s = .ok (sF.subtitle_stream, sS) ∧
      subtitleStream sS = .ok (sF.subtitle_stream, sS) ∧
      videoStream sA = .ok (sF.video_stream, sAV) ∧
      subtitleStream sAV = .ok (sF.subtitle_stream, sAVS) ∧
      sAVS.audio_stream = sF.audio_stream ∧ sAVS.video_stream = sF.video_stream ∧
      sAVS.subtitle_stream = sF.subtitle_stream := by
  have hF := findAVCodec_scan lib s fc hfc (Or.inl hv)
  have hlv := findAVCodecLoop_video lib fc.streams 0
    { s with video_stream := -1, audio_stream := -1, subtitle_stream := -1 } (le_refl 0)
  have hla := findAVCodecLoop_audio lib fc.streams 0
    { s with video_stream := -1, audio_stream := -1, subtitle_stream := -1 } (le_refl 0)
  have hls := findAVCodecLoop_subtitle lib fc.streams 0
    { s with video_stream := -1, audio_stream := -1, subtitle_stream := -1 } (le_refl 0)
  simp only [Int.reduceNeg, Int.reduceLT, if_true] at hlv hla hls
  have hA := audioStream_ok s fc hfc
  have hV := videoStream_ok s fc hfc
  have hAi : audioIndex s fc = scanStream AVMediaType.audio (-1) fc.streams 0 := by
    unfold audioIndex; rw [if_neg (not_not.mpr ha)]
  have hVi : videoIndex s fc = scanStream AVMediaType.video (-1) fc.streams 0 := by
    unfold videoIndex; rw [if_neg (not_not.mpr hv)]
  rw [hAi] at hA
  rw [hVi] at hV
  have hV2 := videoStream_ok
    { s with audio_stream := scanStream AVMediaType.audio (-1) fc.streams 0 } fc hfc
  have hVi2 : videoIndex
      { s with audio_stream := scanStream AVMediaType.audio (-1) fc.streams 0 } fc
      = scanStream AVMediaType.video (-1) fc.streams 0 := by
    unfold videoIndex; rw [if_neg (not_not.mpr hv)]
  rw [hVi2] at hV2
  refine ⟨(findAVCodecLoop lib fc.streams 0
      { s with video_stream := -1, audio_stream := -1, subtitle_stream := -1 }).1,
    (findAVCodecLoop lib fc.streams 0
      { s with video_stream := -1, audio_stream := -1, subtitle_stream := -1 }).2,
    { s with audio_stream := scanStream AVMediaType.audio (-1) fc.streams 0 },
    { s with video_stream := scanStream AVMediaType.video (-1) fc.streams 0 },
    { s with subtitle_stream := scanStream AVMediaType.subtitle (-1) fc.streams 0 },
    { s with audio_stream := scanStream AVMediaType.audio (-1) fc.streams 0,
             video_stream := scanStream AVMediaType.video (-1) fc.streams 0 },
    { s with audio_stream := scanStream AVMediaType.audio (-1) fc.streams 0,
             video_stream := scanStream AVMediaType.video (-1) fc.streams 0,
             subtitle_stream := scanStream AVMediaType.subtitle (-1) fc.streams 0 },
    hF, ?_, ?_, ?_, ?_, ?_, ?_, ?_, ?_, ?_, ?_, ?_⟩
  · rw [hla]; exact hA
  · rw [hla]
    exact (lookups_cached
      { s with audio_stream := scanStream AVMediaType.audio (-1) fc.streams 0 }).1
      (scanStream_ne_unresolved _ _)
  · rw [hlv]; exact hV
  · rw [hlv]
    exact (lookups_cached
      { s with video_stream := scanStream AVMediaType.video (-1) fc.streams 0 }).2.1
      (scanStream_ne_unresolved _ _)
  · rw [hls]; exact subtitleStream_scan s fc hfc hs
  · rw [hls]
    exact (lookups_cached
      { s with subtitle_stream := scanStream AVMediaType.subtitle (-1) fc.streams 0 }).2.2
      (scanStream_ne_unresolved _ _)
  · rw [hlv]; exact hV2
  · rw [hls]
    exact subtitleStream_scan
      { s with audio_stream := scanStream AVMediaType.audio (-1) fc.streams 0,
               video_stream := scanStream AVMediaType.video (-1) fc.streams 0 } fc hfc hs
  · rw [hla]
  · rw [hlv]
  · rw [hls]

/-- C19 on the demo container with all slots unresolved. -/
theorem lookups_agree_with_findAVCodec_witness :
    ∃ (b : Bool) (sF sA sV sS sAV sAVS : AVDemuxer),
      findAVCodec (mkLib 0 0 []) unresolvedSession = .ok (b, sF) ∧
      audioStream unresolvedSession = .ok (sF.audio_stream, sA) ∧
      audioStream sA = .ok (sF.audio_stream, sA) ∧
      videoStream unresolvedSession = .ok (sF.video_stream, sV) ∧
      videoStream sV = .ok (sF.video_stream, sV) ∧
      subtitleStream unresolvedSession = .ok (sF.subtitle_stream, sS) ∧
      subtitleStream sS = .ok (sF.subtitle_stream, sS) ∧
      videoStream sA = .ok (sF.video_stream, sAV) ∧
      subtitleStream sAV = .ok (sF.subtitle_stream, sAVS) ∧
      sAVS.audio_stream = sF.audio_stream ∧ sAVS.video_stream = sF.video_stream ∧
      sAVS.subtitle_stream = sF.subtitle_stream :=
  lookups_agree_with_findAVCodec (mkLib 0 0 []) unresolvedSession (mkFormat demoStreams)
    rfl rfl rfl rfl

/-! ## Lemmas on runs of readFrame and seek -/

/-- The end-of-stream flag and `finished` over one returning `readFrame`: the
flag is never cleared, `finished` is emitted at most once and only together
with setting the flag, and not at all when the flag was already set. -/
theorem readFrame_eof (s : AVDemuxer) (now ret : Int) (p : AVPacket)
    (b : Bool) (s2 : AVDemuxer) (sig : List Signal)
    (h : readFrame s now ret p = .ok (b, s2, sig)) :
    sig.count Signal.finished ≤ 1 ∧
    (Signal.finished ∈ sig → s2.eof = true) ∧
    (s.eof = true → s2.eof = true ∧ Signal.finished ∉ sig) := by
  by_cases hr : ret = AVERROR_EOF
  · subst hr
    cases hfc : s.format_context with
    | none => simp [readFrame, hfc] at h
    | some fc =>
      cases he : s.eof with
      | false =>
        rw [readFrame_eof_first s now p fc hfc he] at h
        simp only [Except.ok.injEq, Prod.mk.injEq] at h
        obtain ⟨_, rfl, rfl⟩ := h
        simp
      | true =>
        rw [readFrame_eof_again s now p fc hfc he] at h
        simp only [Except.ok.injEq, Prod.mk.injEq] at h
        obtain ⟨_, rfl, rfl⟩ := h
        simp [he]
  · obtain ⟨_, h2⟩ := readFrame_ok_frame s now ret p b s2 sig h
    obtain ⟨h3, h4⟩ := h2 hr
    refine ⟨?_, fun hm => absurd hm h4, fun he => ⟨h3.trans he, h4⟩⟩
    rw [List.count_eq_zero_of_not_mem h4]
    exact Nat.zero_le 1

/-- A call of `seek` keeps the end-of-stream flag. -/
theorem seek_eof (f : Int → Int → Int) (s : AVDemuxer) (now : Int) (q : ℚ) :
    (seek f s now q).state.eof = s.eof := by
  obtain ⟨tm, st, vc, mc, h, _⟩ := seek_frame f s now q
  rw [h]

/-- Once the end-of-stream flag is set, a run keeps it set and emits no
`finished`. -/
theorem run_eof_set (ops : List Op) :
    ∀ s : AVDemuxer, s.eof = true →
      (run s ops).1.eof = true ∧ Signal.finished ∉ (run s ops).2.1 := by
  induction ops with
  | nil => intro s he; exact ⟨he, by simp [run]⟩
  | cons o rest ih =>
    intro s he
    cases o with
    | readOp now ret p =>
      simp only [run]
      cases hrd : readFrame s now ret p with
      | error e => exact ⟨he, by simp⟩
      | ok r =>
        obtain ⟨b, s1, sig⟩ := r
        obtain ⟨_, _, h3⟩ := readFrame_eof s now ret p b s1 sig hrd
        obtain ⟨h4, h5⟩ := h3 he
        obtain ⟨h6, h7⟩ := ih s1 h4
        simp only
        exact ⟨h6, by simp [h5, h7]⟩
    | seekOp f now q =>
      simp only [run]
      have hs : (seek f s now q).state.eof = true := (seek_eof f s now q).trans he
      cases hf : (seek f s now q).fault with
      | some e => exact ⟨hs, by simp⟩
      | none => exact ih _ hs

/-- Over a run `finished` is emitted at most once, and only if the run ends with
the end-of-stream flag set. -/
theorem run_finished (ops : List Op) :
    ∀ s : AVDemuxer,
      (run s ops).2.1.count Signal.finished ≤ 1 ∧
      (Signal.finished ∈ (run s ops).2.1 → (run s ops).1.eof = true) := by
  induction ops with
  | nil => intro s; simp [run]
  | cons o rest ih =>
    intro s
    cases o with
    | readOp now ret p =>
      simp only [run]
      cases hrd : readFrame s now ret p with
      | error e => simp
      | ok r =>
        obtain ⟨b, s1, sig⟩ := r
        obtain ⟨h1, h2, _⟩ := readFrame_eof s now ret p b s1 sig hrd
        obtain ⟨h4, h5⟩ := ih s1
        simp only
        by_cases hm : Signal.finished ∈ sig
        · obtain ⟨h6, h7⟩ := run_eof_set rest s1 (h2 hm)
          refine ⟨?_, fun _ => h6⟩
          rw [List.count_append, List.count_eq_zero_of_not_mem h7]
          exact h1
        · refine ⟨?_, fun hin => ?_⟩
          · rw [List.count_append, List.count_eq_zero_of_not_mem hm, Nat.zero_add]
            exact h4
          · rcases List.mem_append.mp hin with hin | hin
            · exact absurd hin hm
            · exact h5 hin
    | seekOp f now q =>
      simp only [run]
      cases hf : (seek f s now q).fault with
      | some e => simp
      | none => exact ih _

/-- A run over two lists in sequence: the first part, and, unless it ended in a
fault, the second part from the state it reached. -/
theorem run_append (o1 o2 : List Op) :
    ∀ s : AVDemuxer, run s (o1 ++ o2) =
      match (run s o1).2.2 with
      | some _ => run s o1
      | none =>
        ((run (run s o1).1 o2).1, (run s o1).2.1 ++ (run (run s o1).1 o2).2.1,
          (run (run s o1).1 o2).2.2) := by
  induction o1 with
  | nil => intro s; simp [run]
  | cons o rest ih =>
    intro s
    cases o with
    | readOp now ret p =>
      show run s (Op.readOp now ret p :: (rest ++ o2)) = _
      rw [run, run]
      cases hrd : readFrame s now ret p with
      | error e => rfl
      | ok r =>
        obtain ⟨b, s1, sig⟩ := r
        simp only [ih s1]
        cases hf : (run s1 rest).2.2 with
        | some e => simp [hf]
        | none => simp [hf, List.append_assoc]
    | seekOp f now q =>
      show run s (Op.seekOp f now q :: (rest ++ o2)) = _
      rw [run, run]
      cases hf : (seek f s now q).fault with
      | some e => rfl
      | none => exact ih _

/-! ## The claim on the end-of-stream flag -/

/-- C20: over every run of `readFrame` and `seek` calls, from every state, the
`finished` signal is emitted at most once; once `atEnd()` is true at some point
of the run it is true at the end of every continuation and no further `finished`
is emitted, also after a replay `seek(0)`; the flag is cleared by `close()`. -/
theorem eof_sticky (s : AVDemuxer) (ops : List Op) :
    (run s ops).2.1.count Signal.finished ≤ 1 ∧
    (∀ o1 o2 : List Op, ops = o1 ++ o2 → atEnd (run s o1).1 = true →
      atEnd (run s ops).1 = true ∧
      (run s ops).2.1.count Signal.finished = (run s o1).2.1.count Signal.finished) ∧
    (∀ (f : Int → Int → Int) (now : Int) (q : ℚ),
      atEnd (seek f s now q).state = atEnd s) ∧
    (∀ (now ret : Int) (p : AVPacket) (b : Bool) (s2 : AVDemuxer) (sig : List Signal),
      readFrame s now ret p = .ok (b, s2, sig) → atEnd s = true → atEnd s2 = true) ∧
    atEnd (close (run s ops).1).2 = false := by
  refine ⟨(run_finished ops s).1, ?_, fun f now q => seek_eof f s now q, ?_, ?_⟩
  · intro o1 o2 hops he
    subst hops
    rw [run_append]
    cases hf : (run s o1).2.2 with
    | some e => exact ⟨he, rfl⟩
    | none =>
      obtain ⟨h1, h2⟩ := run_eof_set o2 (run s o1).1 he
      refine ⟨h1, ?_⟩
      simp only [List.count_append, List.count_eq_zero_of_not_mem h2, Nat.add_zero]
  · intro now ret p b s2 sig h he
    exact ((readFrame_eof s now ret p b s2 sig h).2.2 he).1
  · simp [atEnd, close_eq]

/-! ## Lemmas on reachable states -/

/-- A slot that meets the specification is at least -1. -/
theorem FirstOfType.ge_neg_one {t : AVMediaType} {l : List AVStream} {k : Int}
    (h : FirstOfType t l k) : -1 ≤ k := by
  rcases h with ⟨h1, _⟩ | ⟨n, st, h1, _⟩ <;> omega

/-- The slots after a returning `loadFile`: unresolved without a handle when the
open-input step failed, resolved when the probe succeeded. -/
theorem loadFile_slotsInv (lib : LibAV) (s : AVDemuxer) (now : Int) (f : String)
    (b : Bool) (s2 : AVDemuxer)
    (hprobe : ∀ fc, 0 ≤ (lib.avformat_find_stream_info fc).1)
    (h : loadFile lib s now f = .ok (b, s2)) : slotsInv s2 := by
  rcases ho : lib.avformat_open_input f with ⟨r1, c1⟩
  rcases hp : lib.avformat_find_stream_info { c1 with genpts := true } with ⟨r2, c2⟩
  have h2 : 0 ≤ r2 := by
    have := hprobe { c1 with genpts := true }
    rw [hp] at this
    exact this
  by_cases h1 : r1 < 0
  · unfold loadFile at h
    simp only [close_eq, ho, h1, if_true, Except.ok.injEq, Prod.mk.injEq] at h
    obtain ⟨_, rfl⟩ := h
    exact Or.inl ⟨rfl, rfl, rfl, rfl⟩
  · rw [loadFile_after_probe lib s now f r1 r2 c1 c2 ho (not_lt.mp h1) hp h2] at h
    have hv := findAVCodecLoop_video lib c2.streams 0 (probedState s f c2) (le_refl 0)
    have ha := findAVCodecLoop_audio lib c2.streams 0 (probedState s f c2) (le_refl 0)
    have hs := findAVCodecLoop_subtitle lib c2.streams 0 (probedState s f c2) (le_refl 0)
    simp only [probedState, Int.reduceNeg, Int.reduceLT, if_true] at hv ha hs
    have fv := (scanStream_first AVMediaType.video c2.streams).ge_neg_one
    have fa := (scanStream_first AVMediaType.audio c2.streams).ge_neg_one
    have fs := (scanStream_first AVMediaType.subtitle c2.streams).ge_neg_one
    rw [← hv] at fv
    rw [← ha] at fa
    rw [← hs] at fs
    cases hsel : selectClock (findAVCodecLoop lib c2.streams 0 (probedState s f c2)).2
        (openAudio lib (findAVCodecLoop lib c2.streams 0 (probedState s f c2)).2) with
    | error e => simp [hsel] at h
    | ok s3 =>
      have hs3 : ∃ mc, s3 = { (findAVCodecLoop lib c2.streams 0 (probedState s f c2)).2 with
          master_clock := mc } := by
        unfold selectClock at hsel
        split at hsel
        · cases hsel
        · split_ifs at hsel <;> simp only [Except.ok.injEq] at hsel <;>
            exact ⟨_, hsel.symm⟩
      obtain ⟨mc, rfl⟩ := hs3
      obtain ⟨hvid, vc2, hO, _⟩ := openVideo_spec lib
        { (findAVCodecLoop lib c2.streams 0 (probedState s f c2)).2 with master_clock := mc }
      simp only [hsel, hO, Except.ok.injEq, Prod.mk.injEq] at h
      obtain ⟨_, rfl⟩ := h
      exact Or.inr ⟨fa, fv, fs⟩

/-- A returning `readFrame` on a session whose video and audio slots are
resolved keeps the three slots and the container handle. -/
theorem readFrame_slots (s : AVDemuxer) (now ret : Int) (p : AVPacket)
    (b : Bool) (s2 : AVDemuxer) (sig : List Signal)
    (hv : s.video_stream ≠ -2) (ha : s.audio_stream ≠ -2)
    (h : readFrame s now ret p = .ok (b, s2, sig)) :
    s2.audio_stream = s.audio_stream ∧ s2.video_stream = s.video_stream ∧
    s2.subtitle_stream = s.subtitle_stream := by
  cases hfc : s.format_context with
  | none => simp [readFrame, hfc] at h
  | some fc =>
    by_cases hr : ret = 0
    · subst hr
      obtain ⟨_, pkt, hs2⟩ := readFrame_ok_state s now p fc b s2 sig hfc h
      subst hs2
      have h1 : videoIndex s fc = s.video_stream := by
        unfold videoIndex; rw [if_pos hv]
      have h2 : audioIndex s fc = s.audio_stream := by
        unfold audioIndex; rw [if_pos ha]
      refine ⟨?_, ?_, rfl⟩
      · show (if p.stream_index ≠ videoIndex s fc then audioIndex s fc else s.audio_stream)
          = s.audio_stream
        rw [h2, ite_self]
      · exact h1
    · unfold readFrame at h
      simp only [hfc, ne_eq, hr, not_false_eq_true, if_true] at h
      split_ifs at h <;> simp only [Except.ok.injEq, Prod.mk.injEq] at h <;>
        obtain ⟨_, rfl, _⟩ := h <;> exact ⟨rfl, rfl, rfl⟩

/-- When no probe fails, every reachable state satisfies the slot invariant. -/
theorem reachable_slotsInv (lib : LibAV)
    (hprobe : ∀ fc, 0 ≤ (lib.avformat_find_stream_info fc).1)
    (s : AVDemuxer) (h : Reachable lib s) : slotsInv s := by
  induction h with
  | byConstruct timeout => exact Or.inl ⟨rfl, rfl, rfl, rfl⟩
  | byLoadFile s s2 now f b _ hl _ => exact loadFile_slotsInv lib s now f b s2 hprobe hl
  | byClose s _ _ =>
    rw [close_eq]
    exact Or.inl ⟨rfl, rfl, rfl, rfl⟩
  | byFindAVCodec s s2 b _ hf ih =>
    rcases ih with ⟨h0, h1, h2, h3⟩ | ⟨h1, h2, h3⟩
    · unfold findAVCodec at hf
      rw [if_neg (by rintro ⟨hv, _⟩; exact hv h2)] at hf
      simp [h0] at hf
    · unfold findAVCodec at hf
      rw [if_pos ⟨by omega, by omega, by omega⟩] at hf
      simp only [Except.ok.injEq, Prod.mk.injEq] at hf
      obtain ⟨_, rfl⟩ := hf
      exact Or.inr ⟨h1, h2, h3⟩
  | byAudioStream s s2 i _ hf ih =>
    rcases ih with ⟨h0, h1, h2, h3⟩ | ⟨h1, h2, h3⟩
    · unfold audioStream at hf
      rw [if_neg (not_not.mpr h1)] at hf
      simp [h0] at hf
    · rw [(lookups_cached s).1 (by omega)] at hf
      simp only [Except.ok.injEq, Prod.mk.injEq] at hf
      obtain ⟨_, rfl⟩ := hf
      exact Or.inr ⟨h1, h2, h3⟩
  | byVideoStream s s2 i _ hf ih =>
    rcases ih with ⟨h0, h1, h2, h3⟩ | ⟨h1, h2, h3⟩
    · unfold videoStream at hf
      rw [if_neg (not_not.mpr h2)] at hf
      simp [h0] at hf
    · rw [(lookups_cached s).2.1 (by omega)] at hf
      simp only [Except.ok.injEq, Prod.mk.injEq] at hf
      obtain ⟨_, rfl⟩ := hf
      exact Or.inr ⟨h1, h2, h3⟩
  | bySubtitleStream s s2 i _ hf ih =>
    rcases ih with ⟨h0, h1, h2, h3⟩ | ⟨h1, h2, h3⟩
    · unfold subtitleStream at hf
      rw [if_neg (not_not.mpr h3)] at hf
      simp [h0] at hf
    · rw [(lookups_cached s).2.2 (by omega)] at hf
      simp only [Except.ok.injEq, Prod.mk.injEq] at hf
      obtain ⟨_, rfl⟩ := hf
      exact Or.inr ⟨h1, h2, h3⟩
  | byReadFrame s s2 now ret p b sig _ hf ih =>
    rcases ih with ⟨h0, _⟩ | ⟨h1, h2, h3⟩
    · simp [readFrame, h0] at hf
    · obtain ⟨e1, e2, e3⟩ := readFrame_slots s now ret p b s2 sig (by omega) (by omega) hf
      exact Or.inr ⟨by rw [e1]; exact h1, by rw [e2]; exact h2, by rw [e3]; exact h3⟩
  | bySeek s f now q _ _ ih =>
    obtain ⟨tm, st, vc, mc, hst, _⟩ := seek_frame f s now q
    rw [hst]
    exact ih
  | bySetClock s c _ ih => exact ih
  | bySetInterruptTimeout s t _ ih => exact ih
  | bySetInterruptStatus s i _ ih => exact ih

/-! ## The claim on atomically resolved slots -/

/-- C15 fails as stated: after a `loadFile` whose probe fails (which leaves the
container handle in place with all slots unresolved) a call of `videoStream()`
resolves the video slot only, so a state with the video slot resolved and the
audio and subtitle slots unresolved is reachable. -/
theorem partial_slots_reachable :
    Reachable (mkLib 0 (-1) demoStreams) halfResolved ∧
    halfResolved.video_stream = 1 ∧ halfResolved.audio_stream = -2 ∧
    halfResolved.subtitle_stream = -2 ∧ ¬ slotsAtomic halfResolved := by
  refine ⟨?_, rfl, rfl, rfl, ?_⟩
  · have h0 : Reachable (mkLib 0 (-1) demoStreams) (newDemuxer 5000) :=
      Reachable.byConstruct 5000
    have h1 := Reachable.byLoadFile (newDemuxer 5000)
      { newDemuxer 5000 with
        _file_name := "clip.mkv",
        format_context := some { mkFormat demoStreams with genpts := true } }
      0 "clip.mkv" false h0 rfl
    exact Reachable.byVideoStream _ halfResolved 1 h1 rfl
  · unfold slotsAtomic
    rintro (⟨_, h, _⟩ | ⟨h, _, _⟩)
    · exact absurd h (by decide)
    · exact absurd h (by decide)

/-- C15 as amended: as long as no stream probe fails, in every state reachable
through construction, `loadFile`, `close`, `findAVCodec`, `audioStream()`,
`videoStream()`, `subtitleStream()`, `readFrame`, `seek` and the setters, the
audio, video and subtitle slots are all unresolved or all resolved. -/
theorem slots_atomic_without_probe_failure (lib : LibAV)
    (hprobe : ∀ fc, 0 ≤ (lib.avformat_find_stream_info fc).1)
    (s : AVDemuxer) (h : Reachable lib s) : slotsAtomic s := by
  rcases reachable_slotsInv lib hprobe s h with ⟨_, h1, h2, h3⟩ | h
  · exact Or.inl ⟨h1, h2, h3⟩
  · exact Or.inr h

/-- C15 as amended, on the session reached by construction, `setClock` and a
successful `loadFile` of the demo container. -/
theorem slots_atomic_without_probe_failure_witness : slotsAtomic loadedSession :=
  slots_atomic_without_probe_failure (mkLib 0 0 demoStreams) (fun _ => le_refl 0)
    loadedSession
    (Reachable.byLoadFile clockedDemuxer loadedSession 0 "clip.mkv" true
      (Reachable.bySetClock (newDemuxer 5000) (some autoClock) (Reachable.byConstruct 5000))
      rfl)

/-- C20 on the opened demo session: end-of-stream, a replay `seek(0)`, and
end-of-stream again emit `finished` at most once. -/
theorem eof_sticky_witness :
    (run openSession
      [Op.readOp 1 AVERROR_EOF (mkPacket 0 0 0), Op.seekOp seekOk 1000 0,
       Op.readOp 1001 AVERROR_EOF (mkPacket 0 0 0)]).2.1.count Signal.finished ≤ 1 :=
  (eof_sticky openSession
    [Op.readOp 1 AVERROR_EOF (mkPacket 0 0 0), Op.seekOp seekOk 1000 0,
     Op.readOp 1001 AVERROR_EOF (mkPacket 0 0 0)]).1

end QtAV
